import Mathlib

/-!
Verification of the LetsDoIt task/habit tracker's synchronization core.

This file gives a shallow embedding of the IndexedDB-backed data layer
(`database.js`): the task store, the habit store (with its unique `date`
index), the key-value settings store, the modification-clock bookkeeping,
the snapshot export/import codec, the Google-Drive share-link file-id
extraction, and the `syncFromGoogleDrive` state machine, together with a
transition system for the single-flight sync guard of `SyncContext.jsx`.
Asynchronous effects are made explicit: the current wall-clock instant,
freshly generated ids, and the remote transport's outcome are parameters;
the database is threaded as an explicit state value.
-/

namespace LetsDoIt

/-- A tag record, stored inside the settings collection under the key
`availableTags`. -/
structure Tag where
  id : String
  name : String
  color : String
  deadline : Option String := none
  completedAt : Option String := none
deriving DecidableEq, Repr

/-- A task record of the `tasks` object store (keyPath `id`). -/
structure Task where
  id : String
  content : String := ""
  dueDate : Option String := none
  doneAt : Option String := none
  note : Option String := none
  tags : List String := []
  createdAt : String := ""
  updatedAt : String := ""
deriving DecidableEq, Repr

/-- A habit/mood entry of the `habits` object store (keyPath `id`, plus a
unique index on `date`).  `score`/`note`/`year` are optional because
imported payloads may omit them. -/
structure Habit where
  id : String
  date : String
  score : Option Int := none
  note : Option String := none
  year : Option Int := none
  createdAt : String := ""
  updatedAt : String := ""
deriving DecidableEq, Repr

/-- The persisted Google-Drive sync settings record (settings key
`googleDriveSync`). -/
structure SyncSettings where
  enabled : Bool := false
  shareLink : String := ""
  writeEndpoint : String := ""
  lastSyncAt : Option String := none
  autoSync : Bool := false
deriving DecidableEq, Repr

/-- A value stored in the heterogeneous `settings` object store. -/
inductive SettingValue where
  | tags (ts : List Tag)
  | expand (m : List (String × Bool))
  | sync (s : SyncSettings)
  | str (s : String)
deriving DecidableEq, Repr

/-- The local database state: the three object stores of `LetsDoItDB`.
The settings store is an association list keyed by the setting name. -/
structure DBState where
  tasks : List Task := []
  habits : List Habit := []
  settings : List (String × SettingValue) := []
deriving DecidableEq, Repr

/-- IndexedDB `put` against a store with key path `key`: replace the record
whose key matches, else append the new record. -/
def putByKey {α : Type} (key : α → String) (x : α) : List α → List α
  | [] => [x]
  | y :: ys => if key y = key x then x :: ys else y :: putByKey key x ys

/-- IndexedDB `delete` by primary key. -/
def deleteByKey {α : Type} (key : α → String) (k : String) (l : List α) : List α :=
  l.filter (fun y => key y ≠ k)

/-- IndexedDB `add`: fails with a `ConstraintError` when a record with the
same primary key already exists. -/
def addByKey {α : Type} (key : α → String) (x : α) (l : List α) :
    Except String (List α) :=
  if l.any (fun y => key y == key x) then .error "ConstraintError" else .ok (l ++ [x])

/-- `put` into the habits store: the unique index on `date` rejects a write
whose date collides with a different record's date. -/
def habitsPut (h : Habit) (l : List Habit) : Except String (List Habit) :=
  if l.any (fun y => y.id != h.id && y.date == h.date) then .error "ConstraintError"
  else .ok (putByKey Habit.id h l)

/-- `add` into the habits store: rejects both a duplicate `id` (primary key)
and a duplicate `date` (unique index). -/
def habitsAdd (h : Habit) (l : List Habit) : Except String (List Habit) :=
  if l.any (fun y => y.id == h.id || y.date == h.date) then .error "ConstraintError"
  else .ok (l ++ [h])

/-- Write into an association list: overwrite the first binding of the key in
place, else append a new binding (JS object / keyPath `key` semantics). -/
def assocPut {β : Type} (k : String) (v : β) : List (String × β) → List (String × β)
  | [] => [(k, v)]
  | (k', v') :: rest => if k' = k then (k, v) :: rest else (k', v') :: assocPut k v rest

/-- Read the first binding of a key in an association list. -/
def assocGet {β : Type} (k : String) : List (String × β) → Option β
  | [] => none
  | (k', v) :: rest => if k' = k then some v else assocGet k rest

/-- `getSetting(key)`: read a settings-store value. -/
def getSetting (st : DBState) (k : String) : Option SettingValue :=
  assocGet k st.settings

/-- `setSetting(key, value)`: upsert a settings-store value. -/
def setSetting (k : String) (v : SettingValue) (st : DBState) : DBState :=
  { st with settings := assocPut k v st.settings }

/-! ### Wall-clock instants and timestamp strings -/

/-- The calendar components of a JS `Date` as read by the formatting
accessors (`getFullYear` … `getMilliseconds`, or their UTC variants).
`month` is the 1-based display month. -/
structure JsDateTime where
  year : Nat
  month : Nat
  day : Nat
  hour : Nat
  minute : Nat
  second : Nat
  millis : Nat
deriving DecidableEq, Repr

/-- The decimal digits of a number, as `String(n)` produces them. -/
def natChars (n : Nat) : List Char := (Nat.repr n).toList

/-- `String(n).padStart(w, '0')`. -/
def padLeft (w : Nat) (l : List Char) : List Char :=
  List.replicate (w - l.length) '0' ++ l

/-- Two-digit zero padding. -/
def pad2 (n : Nat) : List Char := padLeft 2 (natChars n)

/-- Three-digit zero padding. -/
def pad3 (n : Nat) : List Char := padLeft 3 (natChars n)

/-- Four-digit zero padding. -/
def pad4 (n : Nat) : List Char := padLeft 4 (natChars n)

/-- Character list of `createLocalISOString` (dateUtils.js): an unpadded
year, padded month/day/hour/minute/second, three millisecond digits, and
no UTC suffix. -/
def localChars (d : JsDateTime) : List Char :=
  natChars d.year ++ '-' :: pad2 d.month ++ '-' :: pad2 d.day ++
    'T' :: pad2 d.hour ++ ':' :: pad2 d.minute ++ ':' :: pad2 d.second ++
    '.' :: pad3 d.millis

/-- `createLocalISOString(date)`: a timezone-naive local timestamp string. -/
def createLocalISOString (d : JsDateTime) : String := (localChars d).asString

/-- Character list of `Date.prototype.toISOString` for years 0–9999: a
four-digit padded year, the same numeric fields in UTC, and a final `Z`. -/
def isoChars (d : JsDateTime) : List Char :=
  pad4 d.year ++ '-' :: pad2 d.month ++ '-' :: pad2 d.day ++
    'T' :: pad2 d.hour ++ ':' :: pad2 d.minute ++ ':' :: pad2 d.second ++
    '.' :: pad3 d.millis ++ ['Z']

/-- `new Date(…).toISOString()`. -/
def jsToISOString (d : JsDateTime) : String := (isoChars d).asString

/-- Consume exactly `n` decimal digits from the front of a character list. -/
def digitsN : Nat → List Char → Option (List Char)
  | 0, l => some l
  | _ + 1, [] => none
  | n + 1, c :: l => if c.isDigit then digitsN n l else none

/-- Consume one expected literal character. -/
def lit (c : Char) : List Char → Option (List Char)
  | [] => none
  | c' :: l => if c' = c then some l else none

/-- Match the rest of the pattern `MM-DDTHH:mm:ss.sss` after the year. -/
def afterYear (l : List Char) : Option (List Char) :=
  digitsN 2 l >>= lit '-' >>= digitsN 2 >>= lit 'T' >>= digitsN 2 >>=
    lit ':' >>= digitsN 2 >>= lit ':' >>= digitsN 2 >>= lit '.' >>= digitsN 3

/-- Whether a string has exactly the timezone-naive local shape
`YYYY-MM-DDTHH:mm:ss.sss` (four-digit year, no `Z` suffix). -/
def isLocalNaiveFormat (s : String) : Bool :=
  match digitsN 4 s.toList >>= lit '-' >>= afterYear with
  | some [] => true
  | _ => false

/-- Whether a string has exactly the UTC shape
`YYYY-MM-DDTHH:mm:ss.sssZ` produced by `toISOString`. -/
def isZuluUTCFormat (s : String) : Bool :=
  match digitsN 4 s.toList >>= lit '-' >>= afterYear >>= lit 'Z' with
  | some [] => true
  | _ => false

/-! ### The modification clock -/

/-- `getLocalDataModifiedAt()`: the stored clock value, with every falsy
stored value normalised to `null`. -/
def getLocalDataModifiedAt (st : DBState) : Option String :=
  match getSetting st "localDataModifiedAt" with
  | some (.str s) => if s = "" then none else some s
  | _ => none

/-- `updateLocalDataTimestamp()` of the web app's database.js: stamp the
clock with `new Date().toISOString()`. -/
def updateLocalDataTimestamp (now : JsDateTime) (st : DBState) : String × DBState :=
  let timestamp := jsToISOString now
  (timestamp, setSetting "localDataModifiedAt" (.str timestamp) st)

/-! ### Task CRUD -/

/-- `createTask(task)`: stamp id (generated when absent) and timestamps,
`add` into the tasks store, bump the clock.  The generated uuid and the
current instant are explicit parameters. -/
def createTask (task : Task) (genId : String) (now : JsDateTime) (st : DBState) :
    Except String (Task × DBState) :=
  let newTask := { task with
    id := if task.id = "" then genId else task.id,
    createdAt := jsToISOString now,
    updatedAt := jsToISOString now }
  (addByKey Task.id newTask st.tasks).map
    (fun ts => (newTask, (updateLocalDataTimestamp now { st with tasks := ts }).2))

/-- The partial update payload accepted by `updateTask`: a present field
overrides the stored one. -/
structure TaskUpdates where
  content : Option String := none
  dueDate : Option (Option String) := none
  doneAt : Option (Option String) := none
  note : Option (Option String) := none
  tags : Option (List String) := none
deriving DecidableEq, Repr

/-- Spread `{...existingTask, ...updates}`. -/
def applyTaskUpdates (t : Task) (u : TaskUpdates) : Task :=
  { t with
    content := u.content.getD t.content,
    dueDate := u.dueDate.getD t.dueDate,
    doneAt := u.doneAt.getD t.doneAt,
    note := u.note.getD t.note,
    tags := u.tags.getD t.tags }

/-- `db.get(TASKS_STORE, id)`. -/
def findTask (st : DBState) (id : String) : Option Task :=
  st.tasks.find? (fun t => t.id == id)

/-- `updateTask(id, updates)`: fails when the task is missing, otherwise
spreads the updates, forces the id, stamps `updatedAt`, `put`s the record
and bumps the clock. -/
def updateTask (id : String) (u : TaskUpdates) (now : JsDateTime) (st : DBState) :
    Except String (Task × DBState) :=
  match findTask st id with
  | none => .error ("Task with id " ++ id ++ " not found")
  | some existing =>
      let updatedTask :=
        { applyTaskUpdates existing u with id := id, updatedAt := jsToISOString now }
      let st1 := { st with tasks := putByKey Task.id updatedTask st.tasks }
      .ok (updatedTask, (updateLocalDataTimestamp now st1).2)

/-- `deleteTask(id)`: delete by key and bump the clock. -/
def deleteTask (id : String) (now : JsDateTime) (st : DBState) : String × DBState :=
  let st1 := { st with tasks := deleteByKey Task.id id st.tasks }
  (id, (updateLocalDataTimestamp now st1).2)

/-! ### UI-only settings -/

/-- `getSectionExpandStates()`. -/
def getSectionExpandStates (st : DBState) : List (String × Bool) :=
  match getSetting st "sectionExpandStates" with
  | some (.expand m) => m
  | _ => []

/-- `setSectionExpandState(sectionId, isExpanded)`: a UI-only settings
write that does not touch the modification clock. -/
def setSectionExpandState (sectionId : String) (isExpanded : Bool) (st : DBState) :
    List (String × Bool) × DBState :=
  let states := assocPut sectionId isExpanded (getSectionExpandStates st)
  (states, setSetting "sectionExpandStates" (.expand states) st)

/-! ### Habit CRUD -/

/-- Lookup through the unique `date` index. -/
def getHabitByDate (st : DBState) (dateStr : String) : Option Habit :=
  st.habits.find? (fun h => h.date == dateStr)

/-- The payload submitted to `upsertHabit` by the survey UI. -/
structure HabitData where
  date : String
  score : Int
  note : String
deriving DecidableEq, Repr

/-- `parseInt(s)`: optional sign then leading decimal digits, `NaN`
(modelled as `none`) when no digit is found. -/
def jsParseInt (s : String) : Option Int :=
  let digitsVal : List Char → Option Nat := fun l =>
    let ds := l.takeWhile Char.isDigit
    if ds.isEmpty then none
    else some (ds.foldl (fun a c => a * 10 + (c.toNat - 48)) 0)
  match s.toList.dropWhile (fun c => c == ' ' || c == '\t' || c == '\n' || c == '\r') with
  | '-' :: rest => (digitsVal rest).map (fun n => -(n : Int))
  | '+' :: rest => (digitsVal rest).map (fun n => (n : Int))
  | rest => (digitsVal rest).map (fun n => (n : Int))

/-- `parseInt(dateStr.split('-')[0])`: the derived year cache. -/
def habitYear (dateStr : String) : Option Int :=
  jsParseInt (dateStr.toList.takeWhile (fun c => c ≠ '-')).asString

/-- `upsertHabit(habitData)`: update the entry found through the date index
in place, else create a fresh one; recompute `year`; bump the clock. -/
def upsertHabit (hd : HabitData) (genId : String) (now : JsDateTime) (st : DBState) :
    Except String (Habit × DBState) :=
  let year := habitYear hd.date
  match getHabitByDate st hd.date with
  | some existing =>
      let updated := { existing with
        date := hd.date, score := some hd.score, note := some hd.note,
        year := year, updatedAt := jsToISOString now }
      (habitsPut updated st.habits).map
        (fun hs => (updated, (updateLocalDataTimestamp now { st with habits := hs }).2))
  | none =>
      let newEntry : Habit := {
        id := genId, date := hd.date, score := some hd.score, note := some hd.note,
        year := year, createdAt := jsToISOString now, updatedAt := jsToISOString now }
      (habitsAdd newEntry st.habits).map
        (fun hs => (newEntry, (updateLocalDataTimestamp now { st with habits := hs }).2))

/-- `deleteHabit(id)`. -/
def deleteHabit (id : String) (now : JsDateTime) (st : DBState) : String × DBState :=
  let st1 := { st with habits := deleteByKey Habit.id id st.habits }
  (id, (updateLocalDataTimestamp now st1).2)

/-! ### Snapshot codec -/

/-- The `data` object of an exported snapshot. -/
structure SnapshotData where
  tasks : List Task := []
  habits : List Habit := []
  settings : List (String × SettingValue) := []
deriving DecidableEq, Repr

/-- The exported / imported / synced JSON payload.  `data` is optional so
that malformed inputs such as `{}` are representable. -/
structure Snapshot where
  version : Nat := 0
  exportedAt : Option String := none
  localModifiedAt : Option String := none
  syncedAt : Option String := none
  data : Option SnapshotData := none
deriving DecidableEq, Repr

/-- The schema version stamped by the exporter. -/
def DB_VERSION : Nat := 9

/-- The subset of settings `exportAllData` reads: the user-data keys, each
included only when its value is defined. -/
def exportedSettings (st : DBState) : List (String × SettingValue) :=
  ["availableTags", "sectionExpandStates"].filterMap
    (fun k => (getSetting st k).map (fun v => (k, v)))

/-- `exportAllData()`: read everything plus the user-data settings keys
(present only when defined), a pure read with no side effect on the
store. -/
def exportAllData (now : JsDateTime) (st : DBState) : Snapshot :=
  let settings := exportedSettings st
  { version := DB_VERSION,
    exportedAt := some (jsToISOString now),
    localModifiedAt := getLocalDataModifiedAt st,
    syncedAt := none,
    data := some { tasks := st.tasks, habits := st.habits, settings := settings } }

/-- The counts `importAllData` reports back. -/
structure ImportResult where
  tasksImported : Nat
  habitsImported : Nat
  settingsImported : Nat
deriving DecidableEq, Repr

/-- JS `a || b` over nullable strings: the empty string is falsy. -/
def jsOrStr (a b : Option String) : Option String :=
  match a with
  | some s => if s = "" then b else some s
  | none => b

/-- `importAllData(importData, { preserveLocalTimestamp })`: validate,
clear both data stores, re-insert every record, upsert the snapshot's
settings keys, and (unless preserving) restamp the clock from the
snapshot's own timestamps or from now.  A habit whose unique date index
is violated aborts that transaction, leaving the habits store cleared. -/
def importAllData (importData : Option Snapshot) (preserveLocalTimestamp : Bool)
    (now : JsDateTime) (st : DBState) : Except String ImportResult × DBState :=
  match importData with
  | none => (.error "Invalid import data format", st)
  | some d =>
    match d.data with
    | none => (.error "Invalid import data format", st)
    | some payload =>
      let st1 : DBState := { st with tasks := [], habits := [] }
      let importedTasks := payload.tasks.foldl (fun acc t => putByKey Task.id t acc) []
      let st2 := { st1 with tasks := importedTasks }
      match payload.habits.foldlM (fun acc h => habitsPut h acc) [] with
      | .error e => (.error e, st2)
      | .ok importedHabits =>
        let st3 := { st2 with habits := importedHabits }
        let st4 := payload.settings.foldl (fun s kv => setSetting kv.1 kv.2 s) st3
        let st5 :=
          if preserveLocalTimestamp then st4
          else
            match jsOrStr d.localModifiedAt (jsOrStr d.syncedAt d.exportedAt) with
            | some ts =>
                if ts = "" then (updateLocalDataTimestamp now st4).2
                else setSetting "localDataModifiedAt" (.str ts) st4
            | none => (updateLocalDataTimestamp now st4).2
        (.ok { tasksImported := payload.tasks.length,
               habitsImported := payload.habits.length,
               settingsImported := payload.settings.length }, st5)

/-! ### Share-link file-id extraction -/

/-- The regex character class `[a-zA-Z0-9_-]`. -/
def isIdChar (c : Char) : Bool := c.isAlphanum || c == '_' || c == '-'

/-- JS whitespace stripped by `String.prototype.trim`. -/
def isJsSpace (c : Char) : Bool :=
  c == ' ' || c == '\t' || c == '\n' || c == '\r' || c == Char.ofNat 11 || c == Char.ofNat 12

/-- `shareLink.trim()`. -/
def jsTrim (l : List Char) : List Char :=
  ((l.dropWhile isJsSpace).reverse.dropWhile isJsSpace).reverse

/-- One anchored attempt of `/\/file\/d\/([a-zA-Z0-9_-]+)/`. -/
def fileDAt (l : List Char) : Option String :=
  if l.take 8 == "/file/d/".toList then
    let cap := (l.drop 8).takeWhile isIdChar
    if cap.isEmpty then none else some cap.asString
  else none

/-- Leftmost match of `/\/file\/d\/([a-zA-Z0-9_-]+)/`. -/
def scanFileD : List Char → Option String
  | [] => none
  | c :: tl =>
    match fileDAt (c :: tl) with
    | some r => some r
    | none => scanFileD tl

/-- One anchored attempt of `/[?&]id=([a-zA-Z0-9_-]+)/`. -/
def qidAt (l : List Char) : Option String :=
  match l with
  | c :: rest =>
    if (c == '?' || c == '&') && rest.take 3 == "id=".toList then
      let cap := (rest.drop 3).takeWhile isIdChar
      if cap.isEmpty then none else some cap.asString
    else none
  | [] => none

/-- Leftmost match of `/[?&]id=([a-zA-Z0-9_-]+)/`. -/
def scanQid : List Char → Option String
  | [] => none
  | c :: tl =>
    match qidAt (c :: tl) with
    | some r => some r
    | none => scanQid tl

/-- One anchored attempt of the literal `id=` followed by a capture. -/
def idAt (l : List Char) : Option String :=
  if l.take 3 == "id=".toList then
    let cap := (l.drop 3).takeWhile isIdChar
    if cap.isEmpty then none else some cap.asString
  else none

/-- The greedy `.*id=([a-zA-Z0-9_-]+)` tail: prefer the last `id=` whose
gap from the start contains no newline (which `.` cannot cross). -/
def lastIdIn : List Char → Option String
  | [] => none
  | c :: tl =>
    if c == '\n' then none
    else
      match lastIdIn tl with
      | some r => some r
      | none => idAt (c :: tl)

/-- One anchored attempt of `/\/uc\?.*id=([a-zA-Z0-9_-]+)/`. -/
def ucAt (l : List Char) : Option String :=
  if l.take 4 == "/uc?".toList then lastIdIn (l.drop 4) else none

/-- Leftmost match of `/\/uc\?.*id=([a-zA-Z0-9_-]+)/`. -/
def scanUc : List Char → Option String
  | [] => none
  | c :: tl =>
    match ucAt (c :: tl) with
    | some r => some r
    | none => scanUc tl

/-- `convertGoogleDriveLinkToDirectUrl(shareLink)`: null on a falsy input,
else trim and try the three URL shapes in order, first match winning. -/
def convertGoogleDriveLinkToDirectUrl (shareLink : String) : Option String :=
  if shareLink = "" then none
  else
    let url := jsTrim shareLink.toList
    match scanFileD url with
    | some fileId => some fileId
    | none =>
      match scanQid url with
      | some fileId => some fileId
      | none => scanUc url

/-- `extractGoogleDriveFileId(shareLink)`. -/
def extractGoogleDriveFileId (shareLink : String) : Option String :=
  convertGoogleDriveLinkToDirectUrl shareLink

/-! ### Sync settings and the sync engine -/

/-- `getGoogleDriveSyncSettings()`: the stored record or the defaults. -/
def getGoogleDriveSyncSettings (st : DBState) : SyncSettings :=
  match getSetting st "googleDriveSync" with
  | some (.sync s) => s
  | _ => {}

/-- A partial update of the sync settings record, spread over the current
one by `setGoogleDriveSyncSettings`. -/
structure SyncSettingsPatch where
  enabled : Option Bool := none
  shareLink : Option String := none
  writeEndpoint : Option String := none
  lastSyncAt : Option (Option String) := none
  autoSync : Option Bool := none
deriving DecidableEq, Repr

/-- `setGoogleDriveSyncSettings(settings)`: `{ ...current, ...settings }`. -/
def setGoogleDriveSyncSettings (p : SyncSettingsPatch) (st : DBState) :
    SyncSettings × DBState :=
  let current := getGoogleDriveSyncSettings st
  let updated : SyncSettings :=
    { enabled := p.enabled.getD current.enabled,
      shareLink := p.shareLink.getD current.shareLink,
      writeEndpoint := p.writeEndpoint.getD current.writeEndpoint,
      lastSyncAt := p.lastSyncAt.getD current.lastSyncAt,
      autoSync := p.autoSync.getD current.autoSync }
  (updated, setSetting "googleDriveSync" (.sync updated) st)

/-- The local database together with the write endpoint's view: every
payload ever accepted by the remote write endpoint, in order. -/
structure World where
  db : DBState
  pushedPayloads : List Snapshot := []
deriving DecidableEq, Repr

/-- The result record of `pushToGoogleDrive`. -/
structure PushResult where
  action : String
  timestamp : String
deriving DecidableEq, Repr

/-- `pushToGoogleDrive()`: export, stamp `syncedAt`, POST the payload
(fire-and-forget; `fetchOk` is whether the send throws), then record
`lastSyncAt`. -/
def pushToGoogleDrive (fetchOk : Bool) (now : JsDateTime) (w : World) :
    Except String PushResult × World :=
  let settings := getGoogleDriveSyncSettings w.db
  if settings.writeEndpoint = "" then
    (.error "No write endpoint configured. Please set up a Google Apps Script Web App.", w)
  else
    let exportData := exportAllData now w.db
    let syncData := { exportData with
      syncedAt := some (jsToISOString now),
      localModifiedAt := getLocalDataModifiedAt w.db }
    if fetchOk then
      let w1 := { w with pushedPayloads := w.pushedPayloads ++ [syncData] }
      let db2 := (setGoogleDriveSyncSettings { lastSyncAt := some (some (jsToISOString now)) } w1.db).2
      (.ok { action := "pushed", timestamp := jsToISOString now }, { w1 with db := db2 })
    else
      (.error "Failed to push data to Google Drive: network error", w)

/-- The result record `sync()` hands back to the UI. -/
structure SyncResult where
  action : String
  tasksImported : Option Nat := none
  habitsImported : Option Nat := none
  localTimestamp : Option String := none
  remoteTimestamp : Option String := none
  isFirstSync : Bool := false
  note : Option String := none
deriving DecidableEq, Repr

/-- JS truthiness of a nullable string: `null`/absent and `""` are falsy. -/
def jsFalsyStrOpt (o : Option String) : Bool :=
  match o with
  | none => true
  | some s => s == ""

/-- `new Date(s).getTime()` comparison helper: `none` stands for `NaN`,
and any comparison against `NaN` is false. -/
def jsGT (a b : Option Int) : Bool :=
  match a, b with
  | some x, some y => decide (x > y)
  | _, _ => false

/-- `timestamp ? new Date(timestamp).getTime() : 0`: epoch of a nullable
timestamp, zero when absent, `NaN` (`none`) when unparseable. -/
def jsTimeOf (parseTime : String → Option Int) (o : Option String) : Option Int :=
  match o with
  | some s => parseTime s
  | none => some 0

/-- `remoteData.localModifiedAt || remoteData.syncedAt || remoteData.exportedAt`. -/
def remoteEffectiveTimestamp (d : Snapshot) : Option String :=
  jsOrStr d.localModifiedAt (jsOrStr d.syncedAt d.exportedAt)

/-- `syncFromGoogleDrive()`.  The remote transport outcome (`remote`), the
push transport outcome (`pushOk`), the wall clock (`now`) and JS date
parsing (`parseTime`, `none` for `NaN`) are explicit parameters. -/
def syncFromGoogleDrive (remote : Except String Snapshot) (pushOk : Bool)
    (now : JsDateTime) (parseTime : String → Option Int) (w : World) :
    Except String SyncResult × World :=
  let settings := getGoogleDriveSyncSettings w.db
  if settings.shareLink = "" then
    (.error "No Google Drive share link configured", w)
  else
    let isFirstSync := jsFalsyStrOpt settings.lastSyncAt
    match extractGoogleDriveFileId settings.shareLink with
    | none => (.error "Invalid Google Drive share link", w)
    | some _ =>
      match remote with
      | .error e => (.error e, w)
      | .ok remoteData =>
        let localModifiedAt := getLocalDataModifiedAt w.db
        let remoteModifiedAt := remoteEffectiveTimestamp remoteData
        if isFirstSync then
          match importAllData (some remoteData) true now w.db with
          | (.error e, db1) => (.error e, { w with db := db1 })
          | (.ok importResult, db1) =>
            let db2 := match remoteModifiedAt with
              | some ts =>
                  if ts = "" then db1 else setSetting "localDataModifiedAt" (.str ts) db1
              | none => db1
            let db3 := (setGoogleDriveSyncSettings
              { lastSyncAt := some (some (jsToISOString now)) } db2).2
            (.ok { action := "pulled",
                   tasksImported := some importResult.tasksImported,
                   habitsImported := some importResult.habitsImported,
                   localTimestamp := localModifiedAt,
                   remoteTimestamp := remoteModifiedAt,
                   isFirstSync := true }, { w with db := db3 })
        else
          let localTime := jsTimeOf parseTime localModifiedAt
          let remoteTime := jsTimeOf parseTime remoteModifiedAt
          if jsGT localTime remoteTime && settings.writeEndpoint != "" then
            match pushToGoogleDrive pushOk now w with
            | (.error e, w1) => (.error e, w1)
            | (.ok _, w1) =>
              (.ok { action := "pushed",
                     localTimestamp := localModifiedAt,
                     remoteTimestamp := remoteModifiedAt }, w1)
          else if jsGT remoteTime localTime then
            match importAllData (some remoteData) true now w.db with
            | (.error e, db1) => (.error e, { w with db := db1 })
            | (.ok importResult, db1) =>
              let db2 := match remoteModifiedAt with
                | some ts =>
                    if ts = "" then db1 else setSetting "localDataModifiedAt" (.str ts) db1
                | none => db1
              let db3 := (setGoogleDriveSyncSettings
                { lastSyncAt := some (some (jsToISOString now)) } db2).2
              (.ok { action := "pulled",
                     tasksImported := some importResult.tasksImported,
                     habitsImported := some importResult.habitsImported,
                     localTimestamp := localModifiedAt,
                     remoteTimestamp := remoteModifiedAt }, { w with db := db3 })
          else if jsGT localTime remoteTime && settings.writeEndpoint == "" then
            let db1 := (setGoogleDriveSyncSettings
              { lastSyncAt := some (some (jsToISOString now)) } w.db).2
            (.ok { action := "upToDate",
                   localTimestamp := localModifiedAt,
                   remoteTimestamp := remoteModifiedAt,
                   note := some "Local data is newer. Configure write endpoint to enable push." },
             { w with db := db1 })
          else
            let db1 := (setGoogleDriveSyncSettings
              { lastSyncAt := some (some (jsToISOString now)) } w.db).2
            (.ok { action := "upToDate",
                   localTimestamp := localModifiedAt,
                   remoteTimestamp := remoteModifiedAt }, { w with db := db1 })

/-! ### The single-flight guard of SyncContext.performSync -/

/-- The guard state of the sync provider: the `isEnabled` flag, the
`isSyncingRef` flag, the `pendingAutoSyncRef` flag, and the number of
`performSync` bodies currently between the guard and their `finally`
block. -/
structure EngineState where
  enabled : Bool
  isSyncing : Bool
  pending : Bool
  inFlight : Nat
deriving DecidableEq, Repr

/-- The observable events of the sync provider. -/
inductive EngineEvent where
  | call
  | finish
  | setEnabled (b : Bool)
deriving DecidableEq, Repr

/-- One event of the cooperative event loop.  A `performSync` invocation
(`call`) returns immediately when disabled; while a sync is in flight it
only records the pending flag (the trailing re-invocation scheduled by the
`finally` block is itself a later `call` event); from idle it marks
`isSyncingRef` and starts a body.  `finish` is a running body reaching its
`finally` block.  The guard check and the `isSyncingRef := true` write are
adjacent synchronous statements, hence one atomic event. -/
inductive EngineStep : EngineState → EngineEvent → EngineState → Prop where
  | callDisabled (s : EngineState) (h : s.enabled = false) :
      EngineStep s .call s
  | callBusy (s : EngineState) (h1 : s.enabled = true) (h2 : s.isSyncing = true) :
      EngineStep s .call { s with pending := true }
  | callStart (s : EngineState) (h1 : s.enabled = true) (h2 : s.isSyncing = false) :
      EngineStep s .call { s with isSyncing := true, inFlight := s.inFlight + 1 }
  | finish (s : EngineState) (h : 0 < s.inFlight) :
      EngineStep s .finish { s with isSyncing := false, pending := false, inFlight := s.inFlight - 1 }
  | setEnabled (s : EngineState) (b : Bool) :
      EngineStep s (.setEnabled b) { s with enabled := b }

/-- The provider mounts with no sync in flight. -/
def EngineInit : EngineState := ⟨false, false, false, 0⟩

/-- States the sync provider can actually be in. -/
def EngineReachable (s : EngineState) : Prop :=
  Relation.ReflTransGen (fun a b => ∃ e, EngineStep a e b) EngineInit s

/-- The in-flight count is tied to the `isSyncingRef` flag. -/
def EngineInv (s : EngineState) : Prop :=
  s.inFlight = (if s.isSyncing then 1 else 0)

/-- Lexicographic order on timestamp strings (chronological for the
fixed-width formats in play), computed structurally. -/
def tsLe (a b : String) : Bool :=
  go a.toList b.toList
where
  go : List Char → List Char → Bool
    | [], _ => true
    | _ :: _, [] => false
    | x :: xs, y :: ys => if x < y then true else if x = y then go xs ys else false

/-- One `upsertHabit` call as the store evolves: a thrown call leaves the
store as it was. -/
def runUpsert (st : DBState) (call : HabitData × String × JsDateTime) : DBState :=
  match upsertHabit call.1 call.2.1 call.2.2 st with
  | .ok (_, st') => st'
  | .error _ => st

/-- Any sequence of `upsertHabit` calls. -/
def upsertMany (calls : List (HabitData × String × JsDateTime)) (st : DBState) : DBState :=
  calls.foldl runUpsert st

/-- The record the update path of `upsertHabit` writes:
`{...existing, ...habitData, year, updatedAt}`. -/
def upsertedHabit (existing : Habit) (hd : HabitData) (now : JsDateTime) : Habit :=
  { existing with
    date := hd.date,
    score := some hd.score,
    note := some hd.note,
    year := habitYear hd.date,
    updatedAt := jsToISOString now }

/-- The record the create path of `upsertHabit` writes. -/
def newHabitEntry (hd : HabitData) (genId : String) (now : JsDateTime) : Habit :=
  { id := genId,
    date := hd.date,
    score := some hd.score,
    note := some hd.note,
    year := habitYear hd.date,
    createdAt := jsToISOString now,
    updatedAt := jsToISOString now }

/-- The well-formedness the habits object store maintains: unique primary
keys and a unique `date` index. -/
def HabitsWF (hs : List Habit) : Prop :=
  (hs.map Habit.id).Nodup ∧ (hs.map Habit.date).Nodup

/-- Every event preserves the in-flight bookkeeping invariant. -/
theorem engineStep_inv {s t : EngineState} {e : EngineEvent}
    (hstep : EngineStep s e t) (hinv : EngineInv s) : EngineInv t := by
  cases hstep with
  | callDisabled h => exact hinv
  | callBusy h1 h2 => simpa [EngineInv, h2] using hinv
  | callStart h1 h2 =>
      simp [EngineInv, h2] at hinv
      simp [EngineInv, hinv]
  | finish h =>
      simp only [EngineInv] at hinv ⊢
      cases hsy : s.isSyncing <;> simp [hsy] at hinv ⊢ <;> omega
  | setEnabled b => exact hinv

/-- The invariant holds in every reachable state. -/
theorem engineInv_of_reachable {s : EngineState} (h : EngineReachable s) : EngineInv s := by
  induction h with
  | refl => rfl
  | tail _ hstep ih => exact engineStep_inv hstep.choose_spec ih

/-! ### Association-list and keyed-store lemmas -/

/-- Reading right after writing the same key. -/
theorem assocGet_assocPut_self {β : Type} (k : String) (v : β) (l : List (String × β)) :
    assocGet k (assocPut k v l) = some v := by
  induction l with
  | nil => simp [assocPut, assocGet]
  | cons hd tl ih =>
      obtain ⟨k', v'⟩ := hd
      by_cases h : k' = k <;> simp [assocPut, assocGet, h, ih]

/-- Writing one key does not disturb another. -/
theorem assocGet_assocPut_ne {β : Type} (k k' : String) (v : β) (l : List (String × β))
    (h : k' ≠ k) : assocGet k' (assocPut k v l) = assocGet k' l := by
  induction l with
  | nil => simp [assocPut, assocGet, h, Ne.symm h]
  | cons hd tl ih =>
      obtain ⟨k0, v0⟩ := hd
      by_cases h0 : k0 = k
      · subst h0
        simp [assocPut, assocGet, Ne.symm h]
      · by_cases h1 : k0 = k' <;> simp [assocPut, assocGet, h0, h1, h, ih]

/-- Overwriting a binding with the value it already holds is a no-op. -/
theorem assocPut_self {β : Type} (k : String) (v : β) (l : List (String × β))
    (h : assocGet k l = some v) : assocPut k v l = l := by
  induction l with
  | nil => simp [assocGet] at h
  | cons hd tl ih =>
      obtain ⟨k0, v0⟩ := hd
      by_cases h0 : k0 = k
      · subst h0
        simp [assocGet] at h
        simp [assocPut, h]
      · simp [assocGet, h0] at h
        simp [assocPut, h0, ih h]

/-- `put` of a fresh key appends. -/
theorem putByKey_not_mem {α : Type} (key : α → String) (x : α) (l : List α)
    (h : key x ∉ l.map key) : putByKey key x l = l ++ [x] := by
  induction l with
  | nil => rfl
  | cons hd tl ih =>
      simp only [List.map_cons, List.mem_cons] at h
      push_neg at h
      simp [putByKey, Ne.symm h.1, ih h.2]

/-- Re-inserting a list of uniquely keyed records into an empty store by
successive `put`s reproduces the list. -/
theorem foldl_putByKey_eq {α : Type} (key : α → String) (l : List α) :
    ∀ acc, ((acc ++ l).map key).Nodup →
      l.foldl (fun a t => putByKey key t a) acc = acc ++ l := by
  induction l with
  | nil => intro acc _; simp
  | cons hd tl ih =>
      intro acc h
      have hmem : key hd ∉ acc.map key := by
        rw [List.map_append, List.nodup_append] at h
        exact fun hx => (h.2.2 hx) (by simp)
      rw [List.foldl_cons, putByKey_not_mem key hd acc hmem]
      have h2 : (((acc ++ [hd]) ++ tl).map key).Nodup := by simpa using h
      rw [ih (acc ++ [hd]) h2]
      simp

/-- Re-inserting uniquely keyed, uniquely dated habit records into an empty
habits store by successive `put`s succeeds and reproduces the list. -/
theorem foldlM_habitsPut_eq (l : List Habit) :
    ∀ acc, ((acc ++ l).map Habit.id).Nodup → ((acc ++ l).map Habit.date).Nodup →
      l.foldlM (fun a h => habitsPut h a) acc = .ok (acc ++ l) := by
  induction l with
  | nil =>
      intro acc _ _
      show pure acc = Except.ok (acc ++ [])
      rw [List.append_nil]
      rfl
  | cons hd tl ih =>
      intro acc hid hdate
      have hdmem : ∀ y ∈ acc, y.date ≠ hd.date := by
        rw [List.map_append, List.nodup_append] at hdate
        intro y hy hq
        exact (hdate.2.2 (List.mem_map_of_mem Habit.date hy)) (by simp [hq])
      have hguard : acc.any (fun y => y.id != hd.id && y.date == hd.date) = false := by
        rw [List.any_eq_false]
        intro y hy
        simp [hdmem y hy]
      have hidmem : Habit.id hd ∉ acc.map Habit.id := by
        rw [List.map_append, List.nodup_append] at hid
        exact fun hx => (hid.2.2 hx) (by simp)
      have hstep : habitsPut hd acc = .ok (acc ++ [hd]) := by
        simp [habitsPut, hguard, putByKey_not_mem Habit.id hd acc hidmem]
      rw [List.foldlM_cons, hstep]
      have h1 : (((acc ++ [hd]) ++ tl).map Habit.id).Nodup := by simpa using hid
      have h2 : (((acc ++ [hd]) ++ tl).map Habit.date).Nodup := by simpa using hdate
      show List.foldlM (fun a h => habitsPut h a) (acc ++ [hd]) tl = Except.ok (acc ++ hd :: tl)
      rw [ih (acc ++ [hd]) h1 h2]
      simp

/-- Reading a setting right after writing it. -/
theorem getSetting_setSetting_self (k : String) (v : SettingValue) (st : DBState) :
    getSetting (setSetting k v st) k = some v :=
  assocGet_assocPut_self k v st.settings

/-- Writing one setting does not disturb another. -/
theorem getSetting_setSetting_ne (k k' : String) (v : SettingValue) (st : DBState)
    (h : k' ≠ k) : getSetting (setSetting k v st) k' = getSetting st k' :=
  assocGet_assocPut_ne k k' v st.settings h

/-- Overwriting a setting with its current value is a no-op. -/
theorem setSetting_eq_self (k : String) (v : SettingValue) (st : DBState)
    (h : getSetting st k = some v) : setSetting k v st = st := by
  simp [setSetting, assocPut_self k v st.settings h]

/-- Re-writing a batch of settings that all hold their current values is a
no-op. -/
theorem foldl_setSetting_self (l : List (String × SettingValue)) :
    ∀ st : DBState, (∀ kv ∈ l, getSetting st kv.1 = some kv.2) →
      l.foldl (fun s kv => setSetting kv.1 kv.2 s) st = st := by
  induction l with
  | nil => intro st _; rfl
  | cons hd tl ih =>
      intro st h
      rw [List.foldl_cons, setSetting_eq_self hd.1 hd.2 st (h hd (by simp))]
      exact ih st (fun kv hkv => h kv (by simp [hkv]))

/-- A settings write never touches the data stores. -/
theorem setSetting_tasks (k : String) (v : SettingValue) (st : DBState) :
    (setSetting k v st).tasks = st.tasks := rfl

/-- A settings write never touches the habit store. -/
theorem setSetting_habits (k : String) (v : SettingValue) (st : DBState) :
    (setSetting k v st).habits = st.habits := rfl

/-- Writing the sync-settings record leaves the modification clock alone. -/
theorem getLocalDataModifiedAt_setSync (v : SettingValue) (st : DBState) :
    getLocalDataModifiedAt (setSetting "googleDriveSync" v st) = getLocalDataModifiedAt st := by
  unfold getLocalDataModifiedAt
  rw [getSetting_setSetting_ne _ _ _ _ (by decide)]

/-! ### C9: share-link file-id extraction -/

/-- C9.  For every input string, extraction tries the three Google-Drive
URL shapes `/file/d/{id}`, `[?&]id={id}` and `/uc?…id={id}` in that order
on the trimmed input, the first match wins, `null` comes back when none
match (or the input is falsy), and the reference sharing link yields
exactly `ABC123`. -/
theorem c9_share_link_extraction :
    extractGoogleDriveFileId "https://drive.google.com/file/d/ABC123/view?usp=sharing"
      = some "ABC123" ∧
    (∀ s fileId, s ≠ "" → scanFileD (jsTrim s.toList) = some fileId →
      extractGoogleDriveFileId s = some fileId) ∧
    (∀ s fileId, s ≠ "" → scanFileD (jsTrim s.toList) = none →
      scanQid (jsTrim s.toList) = some fileId →
      extractGoogleDriveFileId s = some fileId) ∧
    (∀ s fileId, s ≠ "" → scanFileD (jsTrim s.toList) = none →
      scanQid (jsTrim s.toList) = none → scanUc (jsTrim s.toList) = some fileId →
      extractGoogleDriveFileId s = some fileId) ∧
    (∀ s, scanFileD (jsTrim s.toList) = none → scanQid (jsTrim s.toList) = none →
      scanUc (jsTrim s.toList) = none → extractGoogleDriveFileId s = none) := by
  refine ⟨by decide, ?_, ?_, ?_, ?_⟩
  · intro s fileId hs h1
    simp only [String.toList] at h1
    simp [extractGoogleDriveFileId, convertGoogleDriveLinkToDirectUrl, hs, h1]
  · intro s fileId hs h1 h2
    simp only [String.toList] at h1 h2
    simp [extractGoogleDriveFileId, convertGoogleDriveLinkToDirectUrl, hs, h1, h2]
  · intro s fileId hs h1 h2 h3
    simp only [String.toList] at h1 h2 h3
    simp [extractGoogleDriveFileId, convertGoogleDriveLinkToDirectUrl, hs, h1, h2, h3]
  · intro s h1 h2 h3
    simp only [String.toList] at h1 h2 h3
    by_cases hs : s = "" <;>
      simp [extractGoogleDriveFileId, convertGoogleDriveLinkToDirectUrl, hs, h1, h2, h3]

/-- C9 witness: the `?id=` shape fires when `/file/d/` does not. -/
theorem c9_share_link_extraction_witness :
    extractGoogleDriveFileId "https://drive.google.com/open?id=FILE99" = some "FILE99" :=
  c9_share_link_extraction.2.2.1 "https://drive.google.com/open?id=FILE99" "FILE99"
    (by decide) (by decide) (by decide)

/-! ### C5: invalid import input is rejected with the store untouched -/

/-- C5.  An import input that is null or lacks a `data` object fails with
the invalid-format error, and the database state threaded through the call
is returned completely unchanged: the check precedes every write. -/
theorem c5_invalid_import_rejected :
    (∀ (preserve : Bool) (now : JsDateTime) (st : DBState),
      importAllData none preserve now st = (.error "Invalid import data format", st)) ∧
    (∀ (d : Snapshot) (preserve : Bool) (now : JsDateTime) (st : DBState), d.data = none →
      importAllData (some d) preserve now st = (.error "Invalid import data format", st)) := by
  refine ⟨fun _ _ _ => rfl, ?_⟩
  intro d preserve now st hd
  simp [importAllData, hd]

/-- C5 witness: importing `{}` fails and leaves a concrete store intact. -/
theorem c5_invalid_import_rejected_witness :
    importAllData (some {}) false ⟨2024, 1, 2, 3, 4, 5, 6⟩
        { tasks := [{ id := "t1", content := "keep" }] }
      = (.error "Invalid import data format",
         { tasks := [{ id := "t1", content := "keep" }] }) :=
  c5_invalid_import_rejected.2 {} false ⟨2024, 1, 2, 3, 4, 5, 6⟩
    { tasks := [{ id := "t1", content := "keep" }] } rfl

/-! ### C6: at most one sync in flight -/

/-- C6.  In every reachable engine state at most one `performSync` body is
in flight, and a call made while `isSyncingRef` is set starts no new body:
it either only records the pending flag or does nothing at all, so no two
sync operations (and hence no two imports) can ever overlap. -/
theorem c6_single_flight_sync :
    (∀ s, EngineReachable s → s.inFlight ≤ 1) ∧
    (∀ s t, s.isSyncing = true → EngineStep s .call t →
      t = { s with pending := true } ∨ t = s) := by
  constructor
  · intro s hs
    have h := engineInv_of_reachable hs
    rw [EngineInv] at h
    cases hsy : s.isSyncing <;> simp [hsy] at h <;> omega
  · intro s t hsy hstep
    cases hstep with
    | callDisabled h => exact Or.inr rfl
    | callBusy h1 h2 => exact Or.inl rfl
    | callStart h1 h2 => rw [hsy] at h2; cases h2

/-- C6 witness: from the initial state, enabling sync and starting one
sync body reaches a state with one body in flight, and a second call in
that state merely records the pending flag. -/
theorem c6_single_flight_sync_witness :
    (⟨true, true, false, 1⟩ : EngineState).inFlight ≤ 1 ∧
    ((⟨true, true, true, 1⟩ : EngineState) = { (⟨true, true, false, 1⟩ : EngineState) with pending := true } ∨
      (⟨true, true, true, 1⟩ : EngineState) = (⟨true, true, false, 1⟩ : EngineState)) := by
  have hreach : EngineReachable ⟨true, true, false, 1⟩ := by
    refine Relation.ReflTransGen.tail (Relation.ReflTransGen.tail Relation.ReflTransGen.refl
      ⟨.setEnabled true, EngineStep.setEnabled EngineInit true⟩) ?_
    exact ⟨.call, EngineStep.callStart ⟨true, false, false, 0⟩ rfl rfl⟩
  refine ⟨c6_single_flight_sync.1 _ hreach, ?_⟩
  exact c6_single_flight_sync.2 ⟨true, true, false, 1⟩ ⟨true, true, true, 1⟩ rfl
    (EngineStep.callBusy ⟨true, true, false, 1⟩ rfl rfl)

/-! ### C4: export/import round trip -/

/-- A successful import with `preserveLocalTimestamp` spelled out: the data
stores are rebuilt from the payload and the payload's settings keys are
re-written, nothing else. -/
theorem importAllData_preserve_ok (d : Snapshot) (payload : SnapshotData)
    (now : JsDateTime) (st : DBState) (hd : d.data = some payload)
    (hid : (payload.habits.map Habit.id).Nodup)
    (hdate : (payload.habits.map Habit.date).Nodup) :
    importAllData (some d) true now st =
      (.ok { tasksImported := payload.tasks.length,
             habitsImported := payload.habits.length,
             settingsImported := payload.settings.length },
       payload.settings.foldl (fun s kv => setSetting kv.1 kv.2 s)
         { st with
             tasks := payload.tasks.foldl (fun acc t => putByKey Task.id t acc) [],
             habits := payload.habits }) := by
  have hfold : payload.habits.foldlM (fun a h => habitsPut h a) ([] : List Habit)
      = .ok payload.habits := by
    have := foldlM_habitsPut_eq payload.habits [] (by simpa using hid) (by simpa using hdate)
    simpa using this
  simp [importAllData, hd, hfold]

/-- Every exported settings entry holds the value currently stored. -/
theorem exportedSettings_mem (st : DBState) :
    ∀ kv ∈ exportedSettings st, getSetting st kv.1 = some kv.2 := by
  intro kv hkv
  simp only [exportedSettings, List.mem_filterMap, List.mem_cons, List.mem_singleton,
    Option.map_eq_some'] at hkv
  obtain ⟨k, _, v, hv, hkv⟩ := hkv
  subst hkv
  exact hv

/-- C4.  For any store contents, importing the exact output of
`exportAllData` with `preserveLocalTimestamp: true` succeeds, reports the
exported counts, and reproduces the identical store: same tasks, same
habit entries, same settings (nothing regenerated, the clock untouched). -/
theorem c4_export_import_round_trip (st : DBState) (now now' : JsDateTime)
    (hT : (st.tasks.map Task.id).Nodup)
    (hHid : (st.habits.map Habit.id).Nodup)
    (hHdate : (st.habits.map Habit.date).Nodup) :
    importAllData (some (exportAllData now st)) true now' st =
      (.ok { tasksImported := st.tasks.length,
             habitsImported := st.habits.length,
             settingsImported := (exportedSettings st).length }, st) := by
  rw [importAllData_preserve_ok (exportAllData now st)
    { tasks := st.tasks, habits := st.habits, settings := exportedSettings st }
    now' st rfl hHid hHdate]
  rw [foldl_putByKey_eq Task.id st.tasks [] (by simpa using hT)]
  have hself : { st with tasks := [] ++ st.tasks, habits := st.habits } = st := by
    simp
  rw [hself]
  rw [foldl_setSetting_self (exportedSettings st) st (exportedSettings_mem st)]

/-- C4 witness: a concrete populated store survives the round trip. -/
theorem c4_export_import_round_trip_witness :
    importAllData
        (some (exportAllData ⟨2024, 5, 6, 7, 8, 9, 10⟩
          { tasks := [{ id := "t1", content := "hello" }],
            habits := [{ id := "h1", date := "2024-03-01", score := some 7 }],
            settings := [("availableTags", .tags [⟨"personal", "Personal", "#8b5cf6", none, none⟩]),
                         ("localDataModifiedAt", .str "2024-01-01T10:00:00.000Z")] }))
        true ⟨2025, 1, 1, 0, 0, 0, 0⟩
        { tasks := [{ id := "t1", content := "hello" }],
          habits := [{ id := "h1", date := "2024-03-01", score := some 7 }],
          settings := [("availableTags", .tags [⟨"personal", "Personal", "#8b5cf6", none, none⟩]),
                       ("localDataModifiedAt", .str "2024-01-01T10:00:00.000Z")] } =
      (.ok { tasksImported := 1, habitsImported := 1, settingsImported := 1 },
       { tasks := [{ id := "t1", content := "hello" }],
         habits := [{ id := "h1", date := "2024-03-01", score := some 7 }],
         settings := [("availableTags", .tags [⟨"personal", "Personal", "#8b5cf6", none, none⟩]),
                      ("localDataModifiedAt", .str "2024-01-01T10:00:00.000Z")] }) := by
  rw [c4_export_import_round_trip _ _ _ (by decide) (by decide) (by decide)]
  rfl

/-! ### C7: data mutations bump the clock, UI-only settings do not -/

/-- Inversion for a mapped `Except` that came out `ok`. -/
theorem except_map_ok {α β : Type} {e : Except String α} {f : α → β} {y : β}
    (h : e.map f = .ok y) : ∃ x, e = .ok x ∧ f x = y := by
  cases e with
  | error a => simp [Except.map] at h
  | ok x =>
      refine ⟨x, rfl, ?_⟩
      simpa [Except.map] using h

/-- `toISOString` output always carries its trailing UTC marker, so it is
never the empty string. -/
theorem jsToISOString_ne_empty (d : JsDateTime) : jsToISOString d ≠ "" := by
  unfold jsToISOString isoChars
  intro h
  have hdata := congrArg String.data h
  simp [List.asString] at hdata

/-- Stamping the clock makes it read exactly the current instant. -/
theorem getLocalDataModifiedAt_update (now : JsDateTime) (st : DBState) :
    getLocalDataModifiedAt (updateLocalDataTimestamp now st).2 = some (jsToISOString now) := by
  unfold updateLocalDataTimestamp getLocalDataModifiedAt
  simp [getSetting_setSetting_self, jsToISOString_ne_empty now]

/-- C7.  Every successful create, update or delete of a task or habit
entry leaves the modification clock at the current instant — at least its
previous value whenever the wall clock has not moved backwards — while
the UI-only settings writes (section expand state, theme) leave the clock
untouched. -/
theorem c7_mutations_bump_clock (st : DBState) (now : JsDateTime)
    (hmono : ∀ prev, getLocalDataModifiedAt st = some prev → tsLe prev (jsToISOString now) = true) :
    (∀ task genId t' st', createTask task genId now st = .ok (t', st') →
      getLocalDataModifiedAt st' = some (jsToISOString now)) ∧
    (∀ id u t' st', updateTask id u now st = .ok (t', st') →
      getLocalDataModifiedAt st' = some (jsToISOString now)) ∧
    (∀ id, getLocalDataModifiedAt (deleteTask id now st).2 = some (jsToISOString now)) ∧
    (∀ hd genId h' st', upsertHabit hd genId now st = .ok (h', st') →
      getLocalDataModifiedAt st' = some (jsToISOString now)) ∧
    (∀ id, getLocalDataModifiedAt (deleteHabit id now st).2 = some (jsToISOString now)) ∧
    (∀ prev, getLocalDataModifiedAt st = some prev → tsLe prev (jsToISOString now) = true) ∧
    (∀ sec b, getLocalDataModifiedAt (setSectionExpandState sec b st).2
      = getLocalDataModifiedAt st) ∧
    (∀ v, getLocalDataModifiedAt (setSetting "theme" v st) = getLocalDataModifiedAt st) := by
  refine ⟨?_, ?_, ?_, ?_, ?_, hmono, ?_, ?_⟩
  · intro task genId t' st' h
    unfold createTask at h
    obtain ⟨ts, -, hf⟩ := except_map_ok h
    obtain ⟨-, rfl⟩ := Prod.mk.injEq .. ▸ hf
    exact getLocalDataModifiedAt_update now _
  · intro id u t' st' h
    unfold updateTask at h
    cases hfind : findTask st id with
    | none => rw [hfind] at h; cases h
    | some existing =>
        rw [hfind] at h
        obtain ⟨-, rfl⟩ := Prod.mk.injEq .. ▸ Except.ok.inj h
        exact getLocalDataModifiedAt_update now _
  · intro id
    exact getLocalDataModifiedAt_update now _
  · intro hd genId h' st' h
    unfold upsertHabit at h
    cases hg : getHabitByDate st hd.date with
    | some existing =>
        rw [hg] at h
        obtain ⟨hs, -, hf⟩ := except_map_ok h
        obtain ⟨-, rfl⟩ := Prod.mk.injEq .. ▸ hf
        exact getLocalDataModifiedAt_update now _
    | none =>
        rw [hg] at h
        obtain ⟨hs, -, hf⟩ := except_map_ok h
        obtain ⟨-, rfl⟩ := Prod.mk.injEq .. ▸ hf
        exact getLocalDataModifiedAt_update now _
  · intro id
    exact getLocalDataModifiedAt_update now _
  · intro sec b
    unfold setSectionExpandState getLocalDataModifiedAt
    rw [getSetting_setSetting_ne _ _ _ _ (by decide)]
  · intro v
    unfold getLocalDataModifiedAt
    rw [getSetting_setSetting_ne _ _ _ _ (by decide)]

/-- C7 witness: on a concrete store whose clock reads an instant before
now, deleting a task stamps the clock with now, and toggling a section's
expand state leaves it alone. -/
theorem c7_mutations_bump_clock_witness :
    getLocalDataModifiedAt
        (deleteTask "t1" ⟨2024, 5, 6, 7, 8, 9, 123⟩
          { tasks := [{ id := "t1", content := "x" }],
            settings := [("localDataModifiedAt", .str "2024-01-01T10:00:00.000Z")] }).2
      = some "2024-05-06T07:08:09.123Z" ∧
    getLocalDataModifiedAt
        (setSectionExpandState "today" true
          { tasks := [{ id := "t1", content := "x" }],
            settings := [("localDataModifiedAt", .str "2024-01-01T10:00:00.000Z")] }).2
      = getLocalDataModifiedAt
          ({ tasks := [{ id := "t1", content := "x" }],
             settings := [("localDataModifiedAt", .str "2024-01-01T10:00:00.000Z")] } : DBState) := by
  have h := c7_mutations_bump_clock
    { tasks := [{ id := "t1", content := "x" }],
      settings := [("localDataModifiedAt", .str "2024-01-01T10:00:00.000Z")] }
    ⟨2024, 5, 6, 7, 8, 9, 123⟩
    (by intro prev hp
        have : some "2024-01-01T10:00:00.000Z" = some prev := hp
        cases this
        decide)
  refine ⟨?_, h.2.2.2.2.2.2.1 "today" true⟩
  have hd := h.2.2.1 "t1"
  simpa using hd

/-! ### C8: at most one habit entry per date -/

/-- Replacing a stored record by one with the same key and the same image
under `f` leaves the store's `f`-projection unchanged, provided keys are
unique. -/
theorem map_putByKey_of_mem {α γ : Type} (key : α → String) (f : α → γ) (x e : α)
    (l : List α) (hnodup : (l.map key).Nodup) (he : e ∈ l) (hkey : key x = key e)
    (hf : f x = f e) : (putByKey key x l).map f = l.map f := by
  induction l with
  | nil => cases he
  | cons y tl ih =>
      by_cases hy : key y = key x
      · have hye : y = e := by
          cases List.mem_cons.mp he with
          | inl h => exact h.symm ▸ rfl
          | inr h =>
              exfalso
              have : key e ∈ tl.map key := List.mem_map_of_mem key h
              rw [← hkey, ← hy] at this
              exact (List.nodup_cons.mp hnodup).1 this
        subst hye
        simp [putByKey, hy, hf]
      · have hne : e ≠ y := by
          intro hcon
          exact hy ((hcon ▸ hkey).symm)
        have he' : e ∈ tl := by
          cases List.mem_cons.mp he with
          | inl h => exact absurd h hne
          | inr h => exact h
        simp [putByKey, hy, ih (List.nodup_cons.mp hnodup).2 he']

/-- The clock stamp leaves the habit store alone. -/
theorem updateLocalDataTimestamp_habits (now : JsDateTime) (s : DBState) :
    ((updateLocalDataTimestamp now s).2).habits = s.habits := rfl

/-- The clock stamp leaves the task store alone. -/
theorem updateLocalDataTimestamp_tasks (now : JsDateTime) (s : DBState) :
    ((updateLocalDataTimestamp now s).2).tasks = s.tasks := rfl

/-- When an entry for the date already exists in a well-formed store,
`upsertHabit` takes the update path: the stored record keeps its id, gets
the submitted fields, a recomputed `year`, a fresh `updatedAt`, and is
`put` back in place. -/
theorem upsertHabit_existing (hd : HabitData) (genId : String) (now : JsDateTime)
    (st : DBState) (existing : Habit) (hwf : HabitsWF st.habits)
    (hg : getHabitByDate st hd.date = some existing) :
    upsertHabit hd genId now st =
      .ok (upsertedHabit existing hd now,
        (updateLocalDataTimestamp now
          { st with habits := putByKey Habit.id (upsertedHabit existing hd now) st.habits }).2) := by
  have hmem : existing ∈ st.habits := List.mem_of_find?_eq_some hg
  have hdexist : existing.date = hd.date := by
    have := List.find?_some hg
    simpa using this
  have hguard : st.habits.any
      (fun y => y.id != existing.id && y.date == hd.date) = false := by
    rw [List.any_eq_false]
    intro y hy
    by_cases hdy : y.date = hd.date
    · have : y = existing :=
        List.inj_on_of_nodup_map hwf.2 hy hmem (by rw [hdy, hdexist])
      subst this
      simp
    · simp [hdy]
  simp only [upsertHabit, hg]
  simp [habitsPut, upsertedHabit, hguard, Except.map]

/-- When no entry for the date exists, `upsertHabit` takes the create
path: a fresh record keyed by the generated id is added. -/
theorem upsertHabit_new (hd : HabitData) (genId : String) (now : JsDateTime)
    (st : DBState) (hg : getHabitByDate st hd.date = none)
    (hfreshid : ∀ y ∈ st.habits, y.id ≠ genId)
    (hdatefresh : ∀ y ∈ st.habits, y.date ≠ hd.date) :
    upsertHabit hd genId now st =
      .ok (newHabitEntry hd genId now,
        (updateLocalDataTimestamp now
          { st with habits := st.habits ++ [newHabitEntry hd genId now] }).2) := by
  have hguard : st.habits.any (fun y => y.id == genId || y.date == hd.date) = false := by
    rw [List.any_eq_false]
    intro y hy
    simp [hfreshid y hy, hdatefresh y hy]
  simp only [upsertHabit, hg]
  simp [habitsAdd, hguard, Except.map, newHabitEntry]

/-- A single `upsertHabit` call keeps the habits store well-formed. -/
theorem runUpsert_wf (st : DBState) (call : HabitData × String × JsDateTime)
    (h : HabitsWF st.habits) : HabitsWF (runUpsert st call).habits := by
  obtain ⟨hd, genId, now⟩ := call
  cases hg : getHabitByDate st hd.date with
  | some existing =>
      have hdexist : existing.date = hd.date := by
        have := List.find?_some hg
        simpa using this
      have hrun : (runUpsert st (hd, genId, now)).habits =
          putByKey Habit.id (upsertedHabit existing hd now) st.habits := by
        unfold runUpsert
        rw [upsertHabit_existing hd genId now st existing h hg]
        rfl
      rw [hrun]
      constructor
      · rw [map_putByKey_of_mem Habit.id Habit.id (upsertedHabit existing hd now) existing
          st.habits h.1 (List.mem_of_find?_eq_some hg) rfl rfl]
        exact h.1
      · rw [map_putByKey_of_mem Habit.id Habit.date (upsertedHabit existing hd now) existing
          st.habits h.1 (List.mem_of_find?_eq_some hg) rfl (by simp [upsertedHabit, hdexist])]
        exact h.2
  | none =>
      have hdatefresh : ∀ y ∈ st.habits, y.date ≠ hd.date := by
        intro y hy
        have := List.find?_eq_none.mp hg y hy
        simpa using this
      by_cases hfreshid : ∀ y ∈ st.habits, y.id ≠ genId
      · have hrun : (runUpsert st (hd, genId, now)).habits
            = st.habits ++ [newHabitEntry hd genId now] := by
          unfold runUpsert
          rw [upsertHabit_new hd genId now st hg hfreshid hdatefresh]
          rfl
        rw [hrun]
        constructor
        · rw [List.map_append, List.nodup_append]
          refine ⟨h.1, by simp, ?_⟩
          intro a ha hcon
          simp only [newHabitEntry, List.map_cons, List.map_nil, List.mem_singleton] at hcon
          obtain ⟨y, hy, rfl⟩ := List.mem_map.mp ha
          exact (hfreshid y hy) hcon
        · rw [List.map_append, List.nodup_append]
          refine ⟨h.2, by simp, ?_⟩
          intro a ha hcon
          simp only [newHabitEntry, List.map_cons, List.map_nil, List.mem_singleton] at hcon
          obtain ⟨y, hy, rfl⟩ := List.mem_map.mp ha
          exact (hdatefresh y hy) hcon
      · push_neg at hfreshid
        obtain ⟨y, hy, hyid⟩ := hfreshid
        have herr : st.habits.any (fun z => z.id == genId || z.date == hd.date) = true := by
          rw [List.any_eq_true]
          exact ⟨y, hy, by simp [hyid]⟩
        have hrun : runUpsert st (hd, genId, now) = st := by
          unfold runUpsert
          simp [upsertHabit, hg, habitsAdd, herr, Except.map]
        rw [hrun]
        exact h

/-- Well-formedness survives any sequence of `upsertHabit` calls. -/
theorem upsertMany_wf (calls : List (HabitData × String × JsDateTime)) :
    ∀ st : DBState, HabitsWF st.habits → HabitsWF (upsertMany calls st).habits := by
  induction calls with
  | nil => intro st h; exact h
  | cons c tl ih =>
      intro st h
      exact ih (runUpsert st c) (runUpsert_wf st c h)

/-- C8.  After any sequence of `upsertHabit` calls on a well-formed store
the dates of the stored entries remain pairwise distinct — at most one
entry per date — and an upsert for a date that already has an entry
rewrites that entry in place: the id is preserved, the `year` field is
recomputed from the date, and the set of stored ids (hence the number of
entries) is unchanged. -/
theorem c8_habit_entry_unique_per_date :
    (∀ calls (st : DBState), HabitsWF st.habits →
      (((upsertMany calls st).habits.map Habit.date).Nodup)) ∧
    (∀ hd genId now (st : DBState) existing, HabitsWF st.habits →
      getHabitByDate st hd.date = some existing →
      (upsertedHabit existing hd now).id = existing.id ∧
      (upsertedHabit existing hd now).year = habitYear hd.date ∧
      ∃ st', upsertHabit hd genId now st = .ok (upsertedHabit existing hd now, st') ∧
        st'.habits.map Habit.id = st.habits.map Habit.id ∧
        st'.habits.length = st.habits.length) := by
  constructor
  · intro calls st h
    exact (upsertMany_wf calls st h).2
  · intro hd genId now st existing hwf hg
    refine ⟨rfl, rfl, _, upsertHabit_existing hd genId now st existing hwf hg, ?_, ?_⟩
    · rw [updateLocalDataTimestamp_habits]
      exact map_putByKey_of_mem Habit.id Habit.id (upsertedHabit existing hd now) existing
        st.habits hwf.1 (List.mem_of_find?_eq_some hg) rfl rfl
    · rw [updateLocalDataTimestamp_habits]
      have hmapid := map_putByKey_of_mem Habit.id Habit.id (upsertedHabit existing hd now)
        existing st.habits hwf.1 (List.mem_of_find?_eq_some hg) rfl rfl
      have := congrArg List.length hmapid
      simpa using this

/-- C8 witness: two upserts for the same date on an initially empty store
leave distinct dates, and a second upsert over a concrete existing entry
keeps its id, recomputes the year, and keeps the entry count. -/
theorem c8_habit_entry_unique_per_date_witness :
    (((upsertMany
        [(⟨"2024-03-01", 5, "a"⟩, "id1", ⟨2024, 3, 1, 0, 0, 0, 0⟩),
         (⟨"2024-03-01", 9, "b"⟩, "id2", ⟨2024, 3, 2, 0, 0, 0, 0⟩)]
        {}).habits.map Habit.date).Nodup) ∧
    ((upsertedHabit
        { id := "id1", date := "2024-03-01", score := some 5, note := some "a",
          year := some 2024 } ⟨"2024-03-01", 9, "b"⟩ ⟨2024, 3, 2, 0, 0, 0, 0⟩).id = "id1" ∧
      (upsertedHabit
        { id := "id1", date := "2024-03-01", score := some 5, note := some "a",
          year := some 2024 } ⟨"2024-03-01", 9, "b"⟩ ⟨2024, 3, 2, 0, 0, 0, 0⟩).year
        = habitYear "2024-03-01" ∧
      ∃ st', upsertHabit ⟨"2024-03-01", 9, "b"⟩ "id2" ⟨2024, 3, 2, 0, 0, 0, 0⟩
          { habits := [{ id := "id1", date := "2024-03-01", score := some 5,
                         note := some "a", year := some 2024 }] } =
        .ok (upsertedHabit
          { id := "id1", date := "2024-03-01", score := some 5, note := some "a",
            year := some 2024 } ⟨"2024-03-01", 9, "b"⟩ ⟨2024, 3, 2, 0, 0, 0, 0⟩, st') ∧
        st'.habits.map Habit.id =
          ({ habits := [{ id := "id1", date := "2024-03-01", score := some 5,
                          note := some "a", year := some 2024 }] } : DBState).habits.map Habit.id ∧
        st'.habits.length =
          ({ habits := [{ id := "id1", date := "2024-03-01", score := some 5,
                          note := some "a", year := some 2024 }] } : DBState).habits.length) := by
  constructor
  · exact c8_habit_entry_unique_per_date.1 _ {} (by constructor <;> simp)
  · exact c8_habit_entry_unique_per_date.2 ⟨"2024-03-01", 9, "b"⟩ "id2" ⟨2024, 3, 2, 0, 0, 0, 0⟩
      { habits := [{ id := "id1", date := "2024-03-01", score := some 5,
                     note := some "a", year := some 2024 }] }
      { id := "id1", date := "2024-03-01", score := some 5, note := some "a", year := some 2024 }
      (by constructor <;> simp) rfl

/-! ### Sync-engine lemmas -/

/-- Settings batch writes never touch the task store. -/
theorem foldl_setSetting_tasks (l : List (String × SettingValue)) :
    ∀ st : DBState, (l.foldl (fun s kv => setSetting kv.1 kv.2 s) st).tasks = st.tasks := by
  induction l with
  | nil => intro st; rfl
  | cons hd tl ih => intro st; rw [List.foldl_cons, ih]; rfl

/-- Settings batch writes never touch the habit store. -/
theorem foldl_setSetting_habits (l : List (String × SettingValue)) :
    ∀ st : DBState, (l.foldl (fun s kv => setSetting kv.1 kv.2 s) st).habits = st.habits := by
  induction l with
  | nil => intro st; rfl
  | cons hd tl ih => intro st; rw [List.foldl_cons, ih]; rfl

/-- Reading the sync settings back right after patching them. -/
theorem getGoogleDriveSyncSettings_set (p : SyncSettingsPatch) (st : DBState) :
    getGoogleDriveSyncSettings (setGoogleDriveSyncSettings p st).2 =
      { enabled := p.enabled.getD (getGoogleDriveSyncSettings st).enabled,
        shareLink := p.shareLink.getD (getGoogleDriveSyncSettings st).shareLink,
        writeEndpoint := p.writeEndpoint.getD (getGoogleDriveSyncSettings st).writeEndpoint,
        lastSyncAt := p.lastSyncAt.getD (getGoogleDriveSyncSettings st).lastSyncAt,
        autoSync := p.autoSync.getD (getGoogleDriveSyncSettings st).autoSync } := by
  unfold setGoogleDriveSyncSettings
  conv_lhs => rw [getGoogleDriveSyncSettings]
  rw [getSetting_setSetting_self]

/-- Patching the sync settings never touches the data stores. -/
theorem setGoogleDriveSyncSettings_tasks (p : SyncSettingsPatch) (st : DBState) :
    ((setGoogleDriveSyncSettings p st).2).tasks = st.tasks := rfl

/-- Patching the sync settings never touches the habit store. -/
theorem setGoogleDriveSyncSettings_habits (p : SyncSettingsPatch) (st : DBState) :
    ((setGoogleDriveSyncSettings p st).2).habits = st.habits := rfl

/-- Patching the sync settings leaves the modification clock alone. -/
theorem getLocalDataModifiedAt_setPatch (p : SyncSettingsPatch) (st : DBState) :
    getLocalDataModifiedAt (setGoogleDriveSyncSettings p st).2 = getLocalDataModifiedAt st :=
  getLocalDataModifiedAt_setSync _ _

/-- Writing a non-empty raw clock value makes the clock read it. -/
theorem getLocalDataModifiedAt_setStr (ts : String) (st : DBState) (h : ts ≠ "") :
    getLocalDataModifiedAt (setSetting "localDataModifiedAt" (.str ts) st) = some ts := by
  unfold getLocalDataModifiedAt
  rw [getSetting_setSetting_self]
  simp [h]

/-! ### C1: first sync is an unconditional pull -/

/-- C1.  With a configured share link and `lastSyncAt = null`, whatever the
local store holds and whatever well-formed snapshot the remote returns,
`sync()` imports the remote snapshot wholesale (the store's tasks and
habits become the snapshot's), stamps the clock with the remote's
effective timestamp when one exists, sets `lastSyncAt` to now, pushes
nothing, and reports `pulled` with `isFirstSync: true`. -/
theorem c1_first_sync_unconditional_pull
    (w : World) (remote : Snapshot) (payload : SnapshotData) (pushOk : Bool)
    (now : JsDateTime) (parseTime : String → Option Int)
    (hshare : (getGoogleDriveSyncSettings w.db).shareLink ≠ "")
    (hlink : extractGoogleDriveFileId (getGoogleDriveSyncSettings w.db).shareLink ≠ none)
    (hlast : (getGoogleDriveSyncSettings w.db).lastSyncAt = none)
    (hdata : remote.data = some payload)
    (hTid : (payload.tasks.map Task.id).Nodup)
    (hHid : (payload.habits.map Habit.id).Nodup)
    (hHdate : (payload.habits.map Habit.date).Nodup) :
    ∃ res w', syncFromGoogleDrive (.ok remote) pushOk now parseTime w = (.ok res, w') ∧
      res.action = "pulled" ∧
      res.isFirstSync = true ∧
      res.tasksImported = some payload.tasks.length ∧
      res.habitsImported = some payload.habits.length ∧
      w'.pushedPayloads = w.pushedPayloads ∧
      w'.db.tasks = payload.tasks ∧
      w'.db.habits = payload.habits ∧
      (∀ ts, jsOrStr remote.localModifiedAt (jsOrStr remote.syncedAt remote.exportedAt) = some ts →
        ts ≠ "" → getLocalDataModifiedAt w'.db = some ts) ∧
      (getGoogleDriveSyncSettings w'.db).lastSyncAt = some (jsToISOString now) := by
  obtain ⟨fid, hfid⟩ : ∃ fid,
      extractGoogleDriveFileId (getGoogleDriveSyncSettings w.db).shareLink = some fid := by
    cases hx : extractGoogleDriveFileId (getGoogleDriveSyncSettings w.db).shareLink with
    | none => exact absurd hx hlink
    | some f => exact ⟨f, rfl⟩
  have himp := importAllData_preserve_ok remote payload now w.db hdata hHid hHdate
  have hsync : syncFromGoogleDrive (.ok remote) pushOk now parseTime w
      = (.ok { action := "pulled",
               tasksImported := some payload.tasks.length,
               habitsImported := some payload.habits.length,
               localTimestamp := getLocalDataModifiedAt w.db,
               remoteTimestamp :=
                 jsOrStr remote.localModifiedAt (jsOrStr remote.syncedAt remote.exportedAt),
               isFirstSync := true },
         { w with db := (setGoogleDriveSyncSettings
             { lastSyncAt := some (some (jsToISOString now)) }
             (match jsOrStr remote.localModifiedAt (jsOrStr remote.syncedAt remote.exportedAt) with
              | some ts =>
                  if ts = "" then
                    payload.settings.foldl (fun s kv => setSetting kv.1 kv.2 s)
                      { w.db with
                          tasks := payload.tasks.foldl (fun acc t => putByKey Task.id t acc) [],
                          habits := payload.habits }
                  else setSetting "localDataModifiedAt" (.str ts)
                    (payload.settings.foldl (fun s kv => setSetting kv.1 kv.2 s)
                      { w.db with
                          tasks := payload.tasks.foldl (fun acc t => putByKey Task.id t acc) [],
                          habits := payload.habits })
              | none =>
                  payload.settings.foldl (fun s kv => setSetting kv.1 kv.2 s)
                    { w.db with
                        tasks := payload.tasks.foldl (fun acc t => putByKey Task.id t acc) [],
                        habits := payload.habits })).2 }) := by
    simp only [syncFromGoogleDrive, remoteEffectiveTimestamp, hfid, hlast, himp,
      if_neg hshare, jsFalsyStrOpt, if_true, ite_true]
  refine ⟨_, _, hsync, rfl, rfl, rfl, rfl, rfl, ?_, ?_, ?_, ?_⟩
  · cases hts : jsOrStr remote.localModifiedAt (jsOrStr remote.syncedAt remote.exportedAt) with
    | none =>
        simp only [hts, setGoogleDriveSyncSettings_tasks, foldl_setSetting_tasks]
        exact foldl_putByKey_eq Task.id payload.tasks [] (by simpa using hTid)
    | some ts =>
        by_cases hne : ts = "" <;>
          simp only [hts, hne, if_pos, if_neg, setGoogleDriveSyncSettings_tasks,
            setSetting_tasks, foldl_setSetting_tasks, ite_true, ite_false] <;>
          exact foldl_putByKey_eq Task.id payload.tasks [] (by simpa using hTid)
  · cases hts : jsOrStr remote.localModifiedAt (jsOrStr remote.syncedAt remote.exportedAt) with
    | none => simp only [hts, setGoogleDriveSyncSettings_habits, foldl_setSetting_habits]
    | some ts =>
        by_cases hne : ts = "" <;>
          simp only [hts, hne, setGoogleDriveSyncSettings_habits, setSetting_habits,
            foldl_setSetting_habits, ite_true, ite_false]
  · intro ts hts hne
    simp only [hts, hne, ite_false]
    rw [getLocalDataModifiedAt_setPatch, getLocalDataModifiedAt_setStr ts _ hne]
  · rw [getGoogleDriveSyncSettings_set]
    rfl

/-- C1 witness: a concrete first sync against a one-task remote snapshot
pulls it and replaces the local tasks, without pushing. -/
theorem c1_first_sync_unconditional_pull_witness :
    ∃ res w', syncFromGoogleDrive
        (.ok ⟨9, some "2024-02-02T00:00:00.000Z", some "2024-02-01T00:00:00.000Z", none,
          some ⟨[⟨"rt", "remote", none, none, none, [], "", ""⟩], [], []⟩⟩)
        false ⟨2024, 5, 6, 7, 8, 9, 123⟩ (fun _ => some 0)
        ⟨⟨[⟨"local", "old", none, none, none, [], "", ""⟩], [],
          [("googleDriveSync",
            .sync ⟨true, "https://drive.google.com/file/d/ABC123/view", "", none, false⟩)]⟩, []⟩
      = (.ok res, w') ∧
      res.action = "pulled" ∧ res.isFirstSync = true ∧
      w'.pushedPayloads = [] ∧
      w'.db.tasks = [⟨"rt", "remote", none, none, none, [], "", ""⟩] := by
  obtain ⟨res, w', h1, h2, h3, -, -, hpush, htasks, -, -, -⟩ :=
    c1_first_sync_unconditional_pull
      ⟨⟨[⟨"local", "old", none, none, none, [], "", ""⟩], [],
        [("googleDriveSync",
          .sync ⟨true, "https://drive.google.com/file/d/ABC123/view", "", none, false⟩)]⟩, []⟩
      ⟨9, some "2024-02-02T00:00:00.000Z", some "2024-02-01T00:00:00.000Z", none,
        some ⟨[⟨"rt", "remote", none, none, none, [], "", ""⟩], [], []⟩⟩
      ⟨[⟨"rt", "remote", none, none, none, [], "", ""⟩], [], []⟩
      false ⟨2024, 5, 6, 7, 8, 9, 123⟩ (fun _ => some 0)
      (by decide) (by decide) rfl rfl (by decide) (by decide) (by decide)
  exact ⟨res, w', h1, h2, h3, hpush, htasks⟩

/-! ### C2: steady-state push/pull selection -/

/-- A JS `>` verdict is antisymmetric (false on `NaN` either way). -/
theorem jsGT_asymm {a b : Option Int} (h : jsGT a b = true) : jsGT b a = false := by
  cases a with
  | none => simp [jsGT] at h
  | some x =>
      cases b with
      | none => simp [jsGT] at h
      | some y =>
          simp [jsGT] at h ⊢
          omega

/-- A successful push: exports the store, stamps `syncedAt` and the clock
value into the payload, sends it, records `lastSyncAt`. -/
theorem pushToGoogleDrive_ok (now : JsDateTime) (w : World)
    (hep : (getGoogleDriveSyncSettings w.db).writeEndpoint ≠ "") :
    pushToGoogleDrive true now w =
      (.ok { action := "pushed", timestamp := jsToISOString now },
       { db := (setGoogleDriveSyncSettings
           { lastSyncAt := some (some (jsToISOString now)) } w.db).2,
         pushedPayloads := w.pushedPayloads ++
           [{ exportAllData now w.db with
                syncedAt := some (jsToISOString now),
                localModifiedAt := getLocalDataModifiedAt w.db }] }) := by
  simp only [pushToGoogleDrive, if_neg hep, ite_true, if_true]

/-- C2.  On a non-first sync: when the local epoch beats the remote epoch
and a write endpoint is configured, `sync()` pushes the stamped local
export and reports `pushed`; when the remote epoch beats the local one it
imports the remote snapshot (the store becomes the snapshot's data) and
reports `pulled`; when the local epoch is ahead but no write endpoint is
configured nothing moves and it reports `upToDate` with a non-empty note;
`lastSyncAt` is refreshed in every case. -/
theorem c2_steady_state_selection :
    (∀ (w : World) (remote : Snapshot) (now : JsDateTime) (parseTime : String → Option Int),
      (getGoogleDriveSyncSettings w.db).shareLink ≠ "" →
      extractGoogleDriveFileId (getGoogleDriveSyncSettings w.db).shareLink ≠ none →
      jsFalsyStrOpt (getGoogleDriveSyncSettings w.db).lastSyncAt = false →
      jsGT (jsTimeOf parseTime (getLocalDataModifiedAt w.db))
           (jsTimeOf parseTime (remoteEffectiveTimestamp remote)) = true →
      (getGoogleDriveSyncSettings w.db).writeEndpoint ≠ "" →
      ∃ res w', syncFromGoogleDrive (.ok remote) true now parseTime w = (.ok res, w') ∧
        res.action = "pushed" ∧
        w'.pushedPayloads = w.pushedPayloads ++
          [{ exportAllData now w.db with
               syncedAt := some (jsToISOString now),
               localModifiedAt := getLocalDataModifiedAt w.db }] ∧
        w'.db.tasks = w.db.tasks ∧ w'.db.habits = w.db.habits ∧
        (getGoogleDriveSyncSettings w'.db).lastSyncAt = some (jsToISOString now)) ∧
    (∀ (w : World) (remote : Snapshot) (payload : SnapshotData) (pushOk : Bool)
        (now : JsDateTime) (parseTime : String → Option Int),
      (getGoogleDriveSyncSettings w.db).shareLink ≠ "" →
      extractGoogleDriveFileId (getGoogleDriveSyncSettings w.db).shareLink ≠ none →
      jsFalsyStrOpt (getGoogleDriveSyncSettings w.db).lastSyncAt = false →
      jsGT (jsTimeOf parseTime (remoteEffectiveTimestamp remote))
           (jsTimeOf parseTime (getLocalDataModifiedAt w.db)) = true →
      remote.data = some payload →
      (payload.tasks.map Task.id).Nodup →
      (payload.habits.map Habit.id).Nodup →
      (payload.habits.map Habit.date).Nodup →
      ∃ res w', syncFromGoogleDrive (.ok remote) pushOk now parseTime w = (.ok res, w') ∧
        res.action = "pulled" ∧ res.isFirstSync = false ∧
        w'.db.tasks = payload.tasks ∧ w'.db.habits = payload.habits ∧
        w'.pushedPayloads = w.pushedPayloads ∧
        (∀ ts, remoteEffectiveTimestamp remote = some ts → ts ≠ "" →
          getLocalDataModifiedAt w'.db = some ts) ∧
        (getGoogleDriveSyncSettings w'.db).lastSyncAt = some (jsToISOString now)) ∧
    (∀ (w : World) (remote : Snapshot) (pushOk : Bool) (now : JsDateTime)
        (parseTime : String → Option Int),
      (getGoogleDriveSyncSettings w.db).shareLink ≠ "" →
      extractGoogleDriveFileId (getGoogleDriveSyncSettings w.db).shareLink ≠ none →
      jsFalsyStrOpt (getGoogleDriveSyncSettings w.db).lastSyncAt = false →
      jsGT (jsTimeOf parseTime (getLocalDataModifiedAt w.db))
           (jsTimeOf parseTime (remoteEffectiveTimestamp remote)) = true →
      (getGoogleDriveSyncSettings w.db).writeEndpoint = "" →
      ∃ res w', syncFromGoogleDrive (.ok remote) pushOk now parseTime w = (.ok res, w') ∧
        res.action = "upToDate" ∧
        res.note = some "Local data is newer. Configure write endpoint to enable push." ∧
        w'.db.tasks = w.db.tasks ∧ w'.db.habits = w.db.habits ∧
        w'.pushedPayloads = w.pushedPayloads ∧
        getLocalDataModifiedAt w'.db = getLocalDataModifiedAt w.db ∧
        (getGoogleDriveSyncSettings w'.db).lastSyncAt = some (jsToISOString now)) := by
  refine ⟨?_, ?_, ?_⟩
  · intro w remote now parseTime hshare hlink hlast hgt hep
    obtain ⟨fid, hfid⟩ : ∃ fid,
        extractGoogleDriveFileId (getGoogleDriveSyncSettings w.db).shareLink = some fid := by
      cases hx : extractGoogleDriveFileId (getGoogleDriveSyncSettings w.db).shareLink with
      | none => exact absurd hx hlink
      | some f => exact ⟨f, rfl⟩
    have hep' : ((getGoogleDriveSyncSettings w.db).writeEndpoint != "") = true := by
      simp [hep]
    have hpush := pushToGoogleDrive_ok now w hep
    have hsync : syncFromGoogleDrive (.ok remote) true now parseTime w
        = (.ok { action := "pushed",
                 localTimestamp := getLocalDataModifiedAt w.db,
                 remoteTimestamp := remoteEffectiveTimestamp remote },
           { db := (setGoogleDriveSyncSettings
               { lastSyncAt := some (some (jsToISOString now)) } w.db).2,
             pushedPayloads := w.pushedPayloads ++
               [{ exportAllData now w.db with
                    syncedAt := some (jsToISOString now),
                    localModifiedAt := getLocalDataModifiedAt w.db }] }) := by
      simp only [syncFromGoogleDrive, hfid, hlast, hgt, hep', hpush, if_neg hshare,
        Bool.false_eq_true, if_false, ite_false, Bool.and_self, if_true, ite_true]
    refine ⟨_, _, hsync, rfl, rfl, rfl, rfl, ?_⟩
    rw [getGoogleDriveSyncSettings_set]
    rfl
  · intro w remote payload pushOk now parseTime hshare hlink hlast hgt hdata hTid hHid hHdate
    obtain ⟨fid, hfid⟩ : ∃ fid,
        extractGoogleDriveFileId (getGoogleDriveSyncSettings w.db).shareLink = some fid := by
      cases hx : extractGoogleDriveFileId (getGoogleDriveSyncSettings w.db).shareLink with
      | none => exact absurd hx hlink
      | some f => exact ⟨f, rfl⟩
    have hnopush : jsGT (jsTimeOf parseTime (getLocalDataModifiedAt w.db))
        (jsTimeOf parseTime (remoteEffectiveTimestamp remote)) = false := jsGT_asymm hgt
    have himp := importAllData_preserve_ok remote payload now w.db hdata hHid hHdate
    have hsync : syncFromGoogleDrive (.ok remote) pushOk now parseTime w
        = (.ok { action := "pulled",
                 tasksImported := some payload.tasks.length,
                 habitsImported := some payload.habits.length,
                 localTimestamp := getLocalDataModifiedAt w.db,
                 remoteTimestamp := remoteEffectiveTimestamp remote },
           { w with db := (setGoogleDriveSyncSettings
               { lastSyncAt := some (some (jsToISOString now)) }
               (match remoteEffectiveTimestamp remote with
                | some ts =>
                    if ts = "" then
                      payload.settings.foldl (fun s kv => setSetting kv.1 kv.2 s)
                        { w.db with
                            tasks := payload.tasks.foldl (fun acc t => putByKey Task.id t acc) [],
                            habits := payload.habits }
                    else setSetting "localDataModifiedAt" (.str ts)
                      (payload.settings.foldl (fun s kv => setSetting kv.1 kv.2 s)
                        { w.db with
                            tasks := payload.tasks.foldl (fun acc t => putByKey Task.id t acc) [],
                            habits := payload.habits })
                | none =>
                    payload.settings.foldl (fun s kv => setSetting kv.1 kv.2 s)
                      { w.db with
                          tasks := payload.tasks.foldl (fun acc t => putByKey Task.id t acc) [],
                          habits := payload.habits })).2 }) := by
      simp only [syncFromGoogleDrive, hfid, hlast, hgt, hnopush, himp, if_neg hshare,
        Bool.false_eq_true, Bool.false_and, if_false, ite_false, if_true, ite_true]
    refine ⟨_, _, hsync, rfl, rfl, ?_, ?_, rfl, ?_, ?_⟩
    · cases hts : remoteEffectiveTimestamp remote with
      | none =>
          simp only [hts, setGoogleDriveSyncSettings_tasks, foldl_setSetting_tasks]
          exact foldl_putByKey_eq Task.id payload.tasks [] (by simpa using hTid)
      | some ts =>
          by_cases hne : ts = "" <;>
            simp only [hts, hne, setGoogleDriveSyncSettings_tasks, setSetting_tasks,
              foldl_setSetting_tasks, ite_true, ite_false] <;>
            exact foldl_putByKey_eq Task.id payload.tasks [] (by simpa using hTid)
    · cases hts : remoteEffectiveTimestamp remote with
      | none => simp only [hts, setGoogleDriveSyncSettings_habits, foldl_setSetting_habits]
      | some ts =>
          by_cases hne : ts = "" <;>
            simp only [hts, hne, setGoogleDriveSyncSettings_habits, setSetting_habits,
              foldl_setSetting_habits, ite_true, ite_false]
    · intro ts hts hne
      simp only [hts, hne, ite_false]
      rw [getLocalDataModifiedAt_setPatch, getLocalDataModifiedAt_setStr ts _ hne]
    · rw [getGoogleDriveSyncSettings_set]
      rfl
  · intro w remote pushOk now parseTime hshare hlink hlast hgt hep
    obtain ⟨fid, hfid⟩ : ∃ fid,
        extractGoogleDriveFileId (getGoogleDriveSyncSettings w.db).shareLink = some fid := by
      cases hx : extractGoogleDriveFileId (getGoogleDriveSyncSettings w.db).shareLink with
      | none => exact absurd hx hlink
      | some f => exact ⟨f, rfl⟩
    have hnopull : jsGT (jsTimeOf parseTime (remoteEffectiveTimestamp remote))
        (jsTimeOf parseTime (getLocalDataModifiedAt w.db)) = false := jsGT_asymm hgt
    have hep1 : ((getGoogleDriveSyncSettings w.db).writeEndpoint != "") = false := by
      simp [hep]
    have hep2 : ((getGoogleDriveSyncSettings w.db).writeEndpoint == "") = true := by
      simp [hep]
    have hsync : syncFromGoogleDrive (.ok remote) pushOk now parseTime w
        = (.ok { action := "upToDate",
                 localTimestamp := getLocalDataModifiedAt w.db,
                 remoteTimestamp := remoteEffectiveTimestamp remote,
                 note := some "Local data is newer. Configure write endpoint to enable push." },
           { w with db := (setGoogleDriveSyncSettings
               { lastSyncAt := some (some (jsToISOString now)) } w.db).2 }) := by
      simp only [syncFromGoogleDrive, hfid, hlast, hgt, hnopull, hep1, hep2, if_neg hshare,
        Bool.and_false, Bool.and_true, Bool.false_eq_true, if_false, ite_false, if_true,
        ite_true]
    refine ⟨_, _, hsync, rfl, rfl, ?_, ?_, rfl, ?_, ?_⟩
    · exact setGoogleDriveSyncSettings_tasks _ _
    · exact setGoogleDriveSyncSettings_habits _ _
    · exact getLocalDataModifiedAt_setPatch _ _
    · rw [getGoogleDriveSyncSettings_set]
      rfl

/-- C2 witness: on concrete non-first-sync worlds, a newer local clock
with an endpoint pushes, a newer remote pulls, and a newer local clock
without an endpoint reports up-to-date with the explanatory note. -/
theorem c2_steady_state_selection_witness :
    (∃ res w', syncFromGoogleDrive
        (.ok ⟨9, some "R", none, none, some ⟨[], [], []⟩⟩) true ⟨2024, 5, 6, 7, 8, 9, 123⟩
        (fun s => if s = "L" then some 5 else some 3)
        ⟨⟨[], [], [("localDataModifiedAt", .str "L"),
          ("googleDriveSync", .sync ⟨true, "https://drive.google.com/file/d/ABC123/view",
            "https://script.example/x", some "2024-01-01T00:00:00.000Z", false⟩)]⟩, []⟩
      = (.ok res, w') ∧ res.action = "pushed" ∧ w'.pushedPayloads.length = 1) ∧
    (∃ res w', syncFromGoogleDrive
        (.ok ⟨9, none, some "R", none, some ⟨[⟨"rt", "remote", none, none, none, [], "", ""⟩], [], []⟩⟩)
        false ⟨2024, 5, 6, 7, 8, 9, 123⟩
        (fun s => if s = "R" then some 9 else some 5)
        ⟨⟨[⟨"old", "stale", none, none, none, [], "", ""⟩], [],
          [("localDataModifiedAt", .str "L"),
           ("googleDriveSync", .sync ⟨true, "https://drive.google.com/file/d/ABC123/view",
             "", some "2024-01-01T00:00:00.000Z", false⟩)]⟩, []⟩
      = (.ok res, w') ∧ res.action = "pulled" ∧
        w'.db.tasks = [⟨"rt", "remote", none, none, none, [], "", ""⟩] ∧
        w'.pushedPayloads = []) ∧
    (∃ res w', syncFromGoogleDrive
        (.ok ⟨9, some "R", none, none, some ⟨[], [], []⟩⟩) false ⟨2024, 5, 6, 7, 8, 9, 123⟩
        (fun s => if s = "L" then some 5 else some 3)
        ⟨⟨[], [], [("localDataModifiedAt", .str "L"),
          ("googleDriveSync", .sync ⟨true, "https://drive.google.com/file/d/ABC123/view",
            "", some "2024-01-01T00:00:00.000Z", false⟩)]⟩, []⟩
      = (.ok res, w') ∧ res.action = "upToDate" ∧
        res.note = some "Local data is newer. Configure write endpoint to enable push.") := by
  refine ⟨?_, ?_, ?_⟩
  · obtain ⟨res, w', h1, h2, h3, -⟩ := c2_steady_state_selection.1
      ⟨⟨[], [], [("localDataModifiedAt", .str "L"),
        ("googleDriveSync", .sync ⟨true, "https://drive.google.com/file/d/ABC123/view",
          "https://script.example/x", some "2024-01-01T00:00:00.000Z", false⟩)]⟩, []⟩
      ⟨9, some "R", none, none, some ⟨[], [], []⟩⟩ ⟨2024, 5, 6, 7, 8, 9, 123⟩
      (fun s => if s = "L" then some 5 else some 3)
      (by decide) (by decide) (by decide) (by decide) (by decide)
    exact ⟨res, w', h1, h2, by rw [h3]; rfl⟩
  · obtain ⟨res, w', h1, h2, -, h4, -, h6, -, -⟩ := c2_steady_state_selection.2.1
      ⟨⟨[⟨"old", "stale", none, none, none, [], "", ""⟩], [],
        [("localDataModifiedAt", .str "L"),
         ("googleDriveSync", .sync ⟨true, "https://drive.google.com/file/d/ABC123/view",
           "", some "2024-01-01T00:00:00.000Z", false⟩)]⟩, []⟩
      ⟨9, none, some "R", none, some ⟨[⟨"rt", "remote", none, none, none, [], "", ""⟩], [], []⟩⟩
      ⟨[⟨"rt", "remote", none, none, none, [], "", ""⟩], [], []⟩
      false ⟨2024, 5, 6, 7, 8, 9, 123⟩
      (fun s => if s = "R" then some 9 else some 5)
      (by decide) (by decide) (by decide) (by decide) rfl
      (by decide) (by decide) (by decide)
    exact ⟨res, w', h1, h2, h4, h6⟩
  · obtain ⟨res, w', h1, h2, h3, -⟩ := c2_steady_state_selection.2.2
      ⟨⟨[], [], [("localDataModifiedAt", .str "L"),
        ("googleDriveSync", .sync ⟨true, "https://drive.google.com/file/d/ABC123/view",
          "", some "2024-01-01T00:00:00.000Z", false⟩)]⟩, []⟩
      ⟨9, some "R", none, none, some ⟨[], [], []⟩⟩ false ⟨2024, 5, 6, 7, 8, 9, 123⟩
      (fun s => if s = "L" then some 5 else some 3)
      (by decide) (by decide) (by decide) (by decide) rfl
    exact ⟨res, w', h1, h2, h3⟩

/-! ### C3: a timestamp tie favors doing nothing -/

/-- JS `>` never holds between equal epochs (nor between `NaN`s). -/
theorem jsGT_irrefl (a : Option Int) : jsGT a a = false := by
  cases a <;> simp [jsGT]

/-- C3.  On a non-first sync whose local and remote effective epochs are
equal — including both sides never-touched, each read as epoch 0 —
`sync()` reports `upToDate` with no note, imports nothing, pushes
nothing, leaves the store and the modification clock unchanged, and
still refreshes `lastSyncAt`. -/
theorem c3_tie_favors_noop (w : World) (remote : Snapshot) (pushOk : Bool)
    (now : JsDateTime) (parseTime : String → Option Int)
    (hshare : (getGoogleDriveSyncSettings w.db).shareLink ≠ "")
    (hlink : extractGoogleDriveFileId (getGoogleDriveSyncSettings w.db).shareLink ≠ none)
    (hlast : jsFalsyStrOpt (getGoogleDriveSyncSettings w.db).lastSyncAt = false)
    (heq : jsTimeOf parseTime (getLocalDataModifiedAt w.db)
      = jsTimeOf parseTime (remoteEffectiveTimestamp remote)) :
    ∃ res w', syncFromGoogleDrive (.ok remote) pushOk now parseTime w = (.ok res, w') ∧
      res.action = "upToDate" ∧ res.note = none ∧
      w'.db.tasks = w.db.tasks ∧ w'.db.habits = w.db.habits ∧
      w'.pushedPayloads = w.pushedPayloads ∧
      getLocalDataModifiedAt w'.db = getLocalDataModifiedAt w.db ∧
      (getGoogleDriveSyncSettings w'.db).lastSyncAt = some (jsToISOString now) := by
  obtain ⟨fid, hfid⟩ : ∃ fid,
      extractGoogleDriveFileId (getGoogleDriveSyncSettings w.db).shareLink = some fid := by
    cases hx : extractGoogleDriveFileId (getGoogleDriveSyncSettings w.db).shareLink with
    | none => exact absurd hx hlink
    | some f => exact ⟨f, rfl⟩
  have hgt1 : jsGT (jsTimeOf parseTime (getLocalDataModifiedAt w.db))
      (jsTimeOf parseTime (remoteEffectiveTimestamp remote)) = false := by
    rw [heq]; exact jsGT_irrefl _
  have hgt2 : jsGT (jsTimeOf parseTime (remoteEffectiveTimestamp remote))
      (jsTimeOf parseTime (getLocalDataModifiedAt w.db)) = false := by
    rw [heq]; exact jsGT_irrefl _
  have hsync : syncFromGoogleDrive (.ok remote) pushOk now parseTime w
      = (.ok { action := "upToDate",
               localTimestamp := getLocalDataModifiedAt w.db,
               remoteTimestamp := remoteEffectiveTimestamp remote },
         { w with db := (setGoogleDriveSyncSettings
             { lastSyncAt := some (some (jsToISOString now)) } w.db).2 }) := by
    simp only [syncFromGoogleDrive, hfid, hlast, hgt1, hgt2, if_neg hshare,
      Bool.false_and, Bool.false_eq_true, if_false, ite_false, if_true, ite_true]
  refine ⟨_, _, hsync, rfl, rfl, ?_, ?_, rfl, ?_, ?_⟩
  · exact setGoogleDriveSyncSettings_tasks _ _
  · exact setGoogleDriveSyncSettings_habits _ _
  · exact getLocalDataModifiedAt_setPatch _ _
  · rw [getGoogleDriveSyncSettings_set]
    rfl

/-- C3 witness: a concrete tie (equal parse results) and a concrete
both-null tie both come back `upToDate` with everything but `lastSyncAt`
untouched. -/
theorem c3_tie_favors_noop_witness :
    (∃ res w', syncFromGoogleDrive
        (.ok ⟨9, some "L", none, none, some ⟨[], [], []⟩⟩) false ⟨2024, 5, 6, 7, 8, 9, 123⟩
        (fun _ => some 5)
        ⟨⟨[], [], [("localDataModifiedAt", .str "L"),
          ("googleDriveSync", .sync ⟨true, "https://drive.google.com/file/d/ABC123/view",
            "", some "2024-01-01T00:00:00.000Z", false⟩)]⟩, []⟩
      = (.ok res, w') ∧ res.action = "upToDate" ∧ res.note = none ∧
        w'.pushedPayloads = []) ∧
    (∃ res w', syncFromGoogleDrive
        (.ok ⟨9, none, none, none, some ⟨[], [], []⟩⟩) false ⟨2024, 5, 6, 7, 8, 9, 123⟩
        (fun _ => some 7)
        ⟨⟨[], [], [("googleDriveSync",
          .sync ⟨true, "https://drive.google.com/file/d/ABC123/view",
            "", some "2024-01-01T00:00:00.000Z", false⟩)]⟩, []⟩
      = (.ok res, w') ∧ res.action = "upToDate" ∧
        getLocalDataModifiedAt w'.db = none) := by
  constructor
  · obtain ⟨res, w', h1, h2, h3, -, -, h6, -, -⟩ := c3_tie_favors_noop
      ⟨⟨[], [], [("localDataModifiedAt", .str "L"),
        ("googleDriveSync", .sync ⟨true, "https://drive.google.com/file/d/ABC123/view",
          "", some "2024-01-01T00:00:00.000Z", false⟩)]⟩, []⟩
      ⟨9, some "L", none, none, some ⟨[], [], []⟩⟩ false ⟨2024, 5, 6, 7, 8, 9, 123⟩
      (fun _ => some 5) (by decide) (by decide) (by decide) (by decide)
    exact ⟨res, w', h1, h2, h3, h6⟩
  · obtain ⟨res, w', h1, h2, -, -, -, -, h7, -⟩ := c3_tie_favors_noop
      ⟨⟨[], [], [("googleDriveSync",
        .sync ⟨true, "https://drive.google.com/file/d/ABC123/view",
          "", some "2024-01-01T00:00:00.000Z", false⟩)]⟩, []⟩
      ⟨9, none, none, none, some ⟨[], [], []⟩⟩ false ⟨2024, 5, 6, 7, 8, 9, 123⟩
      (fun _ => some 7) (by decide) (by decide) (by decide) (by decide)
    exact ⟨res, w', h1, h2, by rw [h7]; rfl⟩

/-! ### C10: the format the modification clock writes -/

/-- Decimal digit characters are digits. -/
theorem digitChar_isDigit : ∀ n, n < 10 → (Nat.digitChar n).isDigit = true := by decide

/-- Every character `toDigitsCore` emits is a decimal digit. -/
theorem toDigitsCore_all_digits (fuel : Nat) :
    ∀ (n : Nat) (acc : List Char), acc.all Char.isDigit = true →
      (Nat.toDigitsCore 10 fuel n acc).all Char.isDigit = true := by
  induction fuel with
  | zero => intro n acc h; exact h
  | succ fuel ih =>
      intro n acc h
      have hdig : (Nat.digitChar (n % 10)).isDigit = true :=
        digitChar_isDigit (n % 10) (Nat.mod_lt n (by norm_num))
      by_cases h10 : n / 10 = 0
      · simp [Nat.toDigitsCore, h10, hdig, h]
      · simp only [Nat.toDigitsCore, h10, if_false]
        exact ih (n / 10) (Nat.digitChar (n % 10) :: acc) (by simp [hdig, h])

/-- `toDigitsCore` emits exactly one character per decimal digit. -/
theorem toDigitsCore_length_eq (fuel : Nat) :
    ∀ (n : Nat) (acc : List Char), n < fuel →
      (Nat.toDigitsCore 10 fuel n acc).length = Nat.log 10 n + 1 + acc.length := by
  induction fuel with
  | zero => intro n acc h; exact absurd h (Nat.not_lt_zero n)
  | succ fuel ih =>
      intro n acc hn
      by_cases h10 : n / 10 = 0
      · have hlt : n < 10 := by omega
        have hlog : Nat.log 10 n = 0 := Nat.log_eq_zero_iff.mpr (Or.inl hlt)
        simp [Nat.toDigitsCore, h10, hlog, Nat.add_comm]
      · have hge : 10 ≤ n := by omega
        have hfuel : n / 10 < fuel := by omega
        have hrec := ih (n / 10) (Nat.digitChar (n % 10) :: acc) hfuel
        have hlog : Nat.log 10 n = Nat.log 10 (n / 10) + 1 := by
          have hpos : 0 < Nat.log 10 n := Nat.log_pos (by norm_num) hge
          have := Nat.log_div_base 10 n
          omega
        simp only [Nat.toDigitsCore, h10, if_false]
        rw [hrec, hlog]
        simp
        omega

/-- The decimal string of `n` has `log₁₀ n + 1` characters. -/
theorem repr_length_eq (n : Nat) : (Nat.repr n).toList.length = Nat.log 10 n + 1 := by
  have h : (Nat.repr n).toList = Nat.toDigitsCore 10 (n + 1) n [] := rfl
  rw [h, toDigitsCore_length_eq (n + 1) n [] (Nat.lt_succ_self n)]
  rfl

/-- The decimal string of `n` is all digits. -/
theorem repr_all_digits (n : Nat) : (Nat.repr n).toList.all Char.isDigit = true := by
  have h : (Nat.repr n).toList = Nat.toDigitsCore 10 (n + 1) n [] := rfl
  rw [h]
  exact toDigitsCore_all_digits (n + 1) n [] rfl

/-- Zero padding to a width at least the input's length yields exactly
that width, still all digits. -/
theorem padLeft_spec (w : Nat) (l : List Char) (hw : l.length ≤ w)
    (hdig : l.all Char.isDigit = true) :
    (padLeft w l).length = w ∧ (padLeft w l).all Char.isDigit = true := by
  constructor
  · simp [padLeft]
    omega
  · simp only [padLeft, List.all_append, Bool.and_eq_true, hdig, and_true]
    rw [List.all_eq_true]
    intro c hc
    rw [List.eq_of_mem_replicate hc]
    decide

/-- A two-digit field. -/
theorem pad2_spec (n : Nat) (h : n < 100) :
    (pad2 n).length = 2 ∧ (pad2 n).all Char.isDigit = true := by
  have hlen : (natChars n).length ≤ 2 := by
    rw [natChars, repr_length_eq]
    rcases Nat.eq_zero_or_pos n with h0 | h0
    · simp [h0]
    · have := Nat.log_lt_of_lt_pow h0.ne' (show n < 10 ^ 2 by omega)
      omega
  exact padLeft_spec 2 (natChars n) hlen (repr_all_digits n)

/-- A three-digit field. -/
theorem pad3_spec (n : Nat) (h : n < 1000) :
    (pad3 n).length = 3 ∧ (pad3 n).all Char.isDigit = true := by
  have hlen : (natChars n).length ≤ 3 := by
    rw [natChars, repr_length_eq]
    rcases Nat.eq_zero_or_pos n with h0 | h0
    · simp [h0]
    · have := Nat.log_lt_of_lt_pow h0.ne' (show n < 10 ^ 3 by omega)
      omega
  exact padLeft_spec 3 (natChars n) hlen (repr_all_digits n)

/-- A four-digit field. -/
theorem pad4_spec (n : Nat) (h : n < 10000) :
    (pad4 n).length = 4 ∧ (pad4 n).all Char.isDigit = true := by
  have hlen : (natChars n).length ≤ 4 := by
    rw [natChars, repr_length_eq]
    rcases Nat.eq_zero_or_pos n with h0 | h0
    · simp [h0]
    · have := Nat.log_lt_of_lt_pow h0.ne' (show n < 10 ^ 4 by omega)
      omega
  exact padLeft_spec 4 (natChars n) hlen (repr_all_digits n)

/-- A four-digit year needs no padding: its decimal string is 4 digits. -/
theorem natChars_year_spec (n : Nat) (h1 : 1000 ≤ n) (h2 : n < 10000) :
    (natChars n).length = 4 ∧ (natChars n).all Char.isDigit = true := by
  refine ⟨?_, repr_all_digits n⟩
  rw [natChars, repr_length_eq]
  rw [Nat.log_eq_of_pow_le_of_lt_pow (show 10 ^ 3 ≤ n by simpa using h1)
    (show n < 10 ^ (3 + 1) by simpa using h2)]

/-- `digitsN` consumes exactly a block of digits. -/
theorem digitsN_exact (n : Nat) (a b : List Char) (hlen : a.length = n)
    (hdig : a.all Char.isDigit = true) : digitsN n (a ++ b) = some b := by
  subst hlen
  induction a with
  | nil => rfl
  | cons c tl ih =>
      simp only [List.all_cons, Bool.and_eq_true] at hdig
      simp [digitsN, hdig.1, ih hdig.2]

/-- `lit` consumes exactly its expected character. -/
theorem lit_cons (c : Char) (r : List Char) : lit c (c :: r) = some r := by simp [lit]

/-- After a valid year, `afterYear` consumes the entire
`-MM-DDTHH:mm:ss.sss` block (without the leading dash) and returns the
remainder. -/
theorem afterYear_spec (d : JsDateTime) (rest : List Char)
    (hm : d.month < 100) (hd : d.day < 100) (hh : d.hour < 100)
    (hmi : d.minute < 100) (hs : d.second < 100) (hms : d.millis < 1000) :
    afterYear (pad2 d.month ++ '-' :: pad2 d.day ++ 'T' :: pad2 d.hour ++
      ':' :: pad2 d.minute ++ ':' :: pad2 d.second ++ '.' :: pad3 d.millis ++ rest)
      = some rest := by
  obtain ⟨hm1, hm2⟩ := pad2_spec d.month hm
  obtain ⟨hd1, hd2⟩ := pad2_spec d.day hd
  obtain ⟨hh1, hh2⟩ := pad2_spec d.hour hh
  obtain ⟨hmi1, hmi2⟩ := pad2_spec d.minute hmi
  obtain ⟨hs1, hs2⟩ := pad2_spec d.second hs
  obtain ⟨hms1, hms2⟩ := pad3_spec d.millis hms
  unfold afterYear
  simp only [Option.bind_eq_bind', List.append_assoc, List.cons_append]
  rw [digitsN_exact 2 (pad2 d.month) _ hm1 hm2]
  simp only [Option.some_bind]
  rw [lit_cons]
  simp only [Option.some_bind]
  rw [digitsN_exact 2 (pad2 d.day) _ hd1 hd2]
  simp only [Option.some_bind]
  rw [lit_cons]
  simp only [Option.some_bind]
  rw [digitsN_exact 2 (pad2 d.hour) _ hh1 hh2]
  simp only [Option.some_bind]
  rw [lit_cons]
  simp only [Option.some_bind]
  rw [digitsN_exact 2 (pad2 d.minute) _ hmi1 hmi2]
  simp only [Option.some_bind]
  rw [lit_cons]
  simp only [Option.some_bind]
  rw [digitsN_exact 2 (pad2 d.second) _ hs1 hs2]
  simp only [Option.some_bind]
  rw [lit_cons]
  simp only [Option.some_bind]
  rw [digitsN_exact 3 (pad3 d.millis) _ hms1 hms2]

/-- For in-range components, `createLocalISOString` matches the Z-less
local pattern, while `toISOString` carries the `Z` suffix instead. -/
theorem timestamp_formats (d : JsDateTime) (hy1 : 1000 ≤ d.year) (hy2 : d.year < 10000)
    (hm : d.month < 100) (hd : d.day < 100) (hh : d.hour < 100) (hmi : d.minute < 100)
    (hs : d.second < 100) (hms : d.millis < 1000) :
    isLocalNaiveFormat (createLocalISOString d) = true ∧
    isZuluUTCFormat (jsToISOString d) = true ∧
    isLocalNaiveFormat (jsToISOString d) = false := by
  obtain ⟨hy41, hy42⟩ := natChars_year_spec d.year hy1 hy2
  obtain ⟨hp41, hp42⟩ := pad4_spec d.year (by omega)
  have hlocal : (createLocalISOString d).toList = localChars d := rfl
  have hiso : (jsToISOString d).toList = isoChars d := rfl
  have hafter := afterYear_spec d [] hm hd hh hmi hs hms
  have hafterZ := afterYear_spec d ['Z'] hm hd hh hmi hs hms
  simp only [List.append_assoc, List.cons_append, List.append_nil] at hafter hafterZ
  refine ⟨?_, ?_, ?_⟩
  · unfold isLocalNaiveFormat
    rw [hlocal]
    unfold localChars
    simp only [Option.bind_eq_bind', List.append_assoc, List.cons_append]
    rw [digitsN_exact 4 (natChars d.year) _ hy41 hy42]
    simp only [Option.some_bind]
    rw [lit_cons]
    simp only [Option.some_bind]
    rw [hafter]
  · unfold isZuluUTCFormat
    rw [hiso]
    unfold isoChars
    simp only [Option.bind_eq_bind', List.append_assoc, List.cons_append]
    rw [digitsN_exact 4 (pad4 d.year) _ hp41 hp42]
    simp only [Option.some_bind]
    rw [lit_cons]
    simp only [Option.some_bind]
    rw [hafterZ]
    simp only [Option.some_bind]
    rw [lit_cons]
  · unfold isLocalNaiveFormat
    rw [hiso]
    unfold isoChars
    simp only [Option.bind_eq_bind', List.append_assoc, List.cons_append]
    rw [digitsN_exact 4 (pad4 d.year) _ hp41 hp42]
    simp only [Option.some_bind]
    rw [lit_cons]
    simp only [Option.some_bind]
    rw [hafterZ]

/-- C10 counterexample: at a concrete instant, the clock of the web app's
database.js stores `new Date().toISOString()` — a `Z`-suffixed UTC string
that does not match the claimed timezone-naive local format. -/
theorem c10_local_timestamp_format_counterexample :
    (updateLocalDataTimestamp ⟨2024, 1, 2, 3, 4, 5, 6⟩ {}).1
      = "2024-01-02T03:04:05.006Z" ∧
    getLocalDataModifiedAt (updateLocalDataTimestamp ⟨2024, 1, 2, 3, 4, 5, 6⟩ {}).2
      = some "2024-01-02T03:04:05.006Z" ∧
    isLocalNaiveFormat "2024-01-02T03:04:05.006Z" = false ∧
    "2024-01-02T03:04:05.006Z".toList.getLast? = some 'Z' := by
  refine ⟨by decide, by decide, by decide, by decide⟩

/-- C10 amended.  Every value `updateLocalDataTimestamp` (part_010) writes
to `localDataModifiedAt` is `new Date().toISOString()`: a UTC string of
the shape `YYYY-MM-DDTHH:mm:ss.sssZ`, carrying the `Z` suffix rather than
the claimed naive local shape; the timezone-naive no-`Z` format
`YYYY-MM-DDTHH:mm:ss.sss` is what `createLocalISOString` (dateUtils.js)
produces. -/
theorem c10_local_timestamp_format_amended (d : JsDateTime) (st : DBState)
    (hy1 : 1000 ≤ d.year) (hy2 : d.year < 10000) (hm : d.month < 100) (hd : d.day < 100)
    (hh : d.hour < 100) (hmi : d.minute < 100) (hs : d.second < 100) (hms : d.millis < 1000) :
    (updateLocalDataTimestamp d st).1 = jsToISOString d ∧
    getLocalDataModifiedAt (updateLocalDataTimestamp d st).2 = some (jsToISOString d) ∧
    isZuluUTCFormat (jsToISOString d) = true ∧
    isLocalNaiveFormat (jsToISOString d) = false ∧
    isLocalNaiveFormat (createLocalISOString d) = true := by
  obtain ⟨h1, h2, h3⟩ := timestamp_formats d hy1 hy2 hm hd hh hmi hs hms
  exact ⟨rfl, getLocalDataModifiedAt_update d st, h2, h3, h1⟩

/-- C10 amended witness: the concrete instant evaluates to a `Z`-suffixed
clock value while the local formatter yields the `Z`-less shape. -/
theorem c10_local_timestamp_format_amended_witness :
    (updateLocalDataTimestamp ⟨2024, 1, 2, 3, 4, 5, 6⟩ {}).1
      = jsToISOString ⟨2024, 1, 2, 3, 4, 5, 6⟩ ∧
    getLocalDataModifiedAt (updateLocalDataTimestamp ⟨2024, 1, 2, 3, 4, 5, 6⟩ {}).2
      = some (jsToISOString ⟨2024, 1, 2, 3, 4, 5, 6⟩) ∧
    isZuluUTCFormat (jsToISOString ⟨2024, 1, 2, 3, 4, 5, 6⟩) = true ∧
    isLocalNaiveFormat (jsToISOString ⟨2024, 1, 2, 3, 4, 5, 6⟩) = false ∧
    isLocalNaiveFormat (createLocalISOString ⟨2024, 1, 2, 3, 4, 5, 6⟩) = true :=
  c10_local_timestamp_format_amended ⟨2024, 1, 2, 3, 4, 5, 6⟩ {}
    (by decide) (by decide) (by decide) (by decide) (by decide) (by decide) (by decide)
    (by decide)

end LetsDoIt
